import Mathlib

set_option linter.unusedVariables false

/-! Shallow embedding of the EduManage dynamic-configuration subsystem:
the `Configuration` mongoose model (`backend/models/Configuration.js`)
and the `/api/configurations` router. -/

/-- JavaScript number semantics: NaN, the two infinities, or a finite value
(modelled as a rational; the repository only manipulates decimal literals). -/
inductive JSNum where
  | nan
  | posInf
  | negInf
  | fin (q : ℚ)
deriving DecidableEq, Repr

/-- JavaScript `<` on numbers: every comparison involving NaN is false. -/
def JSNum.ltb : JSNum → JSNum → Bool
  | .nan, _ => false
  | _, .nan => false
  | .negInf, .negInf => false
  | .negInf, _ => true
  | _, .negInf => false
  | .posInf, _ => false
  | .fin _, .posInf => true
  | .fin p, .fin q => decide (p < q)

/-- JavaScript `>` on numbers. -/
def JSNum.gtb (a b : JSNum) : Bool := JSNum.ltb b a

/-- Dynamic (`Schema.Types.Mixed`) JavaScript values as stored in `value` /
`defaultValue`.  `undefined` cannot occur inside a JSON request body or a
persisted Mixed field, so it is not represented; absence of a field is
modelled with `Option JSValue` instead. -/
inductive JSValue where
  | null
  | bool (b : Bool)
  | num (n : JSNum)
  | str (s : String)
  | arr (xs : List JSValue)
  | obj (fields : List (String × JSValue))
deriving Repr

mutual

/-- Structural (deep) equality on JS values, as mongoose's change tracking
compares a newly assigned value with the stored one. -/
def JSValue.beq : JSValue → JSValue → Bool
  | .null, .null => true
  | .bool a, .bool b => a == b
  | .num a, .num b => a == b
  | .str a, .str b => a == b
  | .arr a, .arr b => JSValue.beqList a b
  | .obj a, .obj b => JSValue.beqFields a b
  | _, _ => false

def JSValue.beqList : List JSValue → List JSValue → Bool
  | [], [] => true
  | a :: as, b :: bs => JSValue.beq a b && JSValue.beqList as bs
  | _, _ => false

def JSValue.beqFields : List (String × JSValue) → List (String × JSValue) → Bool
  | [], [] => true
  | (k1, v1) :: as, (k2, v2) :: bs =>
    k1 == k2 && JSValue.beq v1 v2 && JSValue.beqFields as bs
  | _, _ => false

end

/-- Decimal digits of the fractional part of a nonnegative rational,
with fuel bounding the number of emitted digits (JS prints a finite
decimal for the values this repository manipulates). -/
def fracDigits : Nat → ℚ → String
  | 0, _ => ""
  | n + 1, r =>
    if r = 0 then ""
    else
      let r10 := r * 10
      let d : ℤ := ⌊r10⌋
      String.singleton (Nat.digitChar d.toNat) ++ fracDigits n (r10 - (d : ℚ))

/-- Rendering of a (finite) JS number as `String(n)` renders it. -/
def ratToString (q : ℚ) : String :=
  let sgn := if q < 0 then "-" else ""
  let a := |q|
  let ip : ℤ := ⌊a⌋
  let fs := fracDigits 30 (a - (ip : ℚ))
  sgn ++ toString ip.toNat ++ (if fs = "" then "" else "." ++ fs)

/-- `String(n)` for a JS number. -/
def JSNum.toStr : JSNum → String
  | .nan => "NaN"
  | .posInf => "Infinity"
  | .negInf => "-Infinity"
  | .fin q => ratToString q

mutual

/-- JavaScript `String(v)` coercion. -/
def JSValue.toStr : JSValue → String
  | .null => "null"
  | .bool b => if b then "true" else "false"
  | .num n => JSNum.toStr n
  | .str s => s
  | .arr xs => JSValue.joinComma xs
  | .obj _ => "[object Object]"

/-- `Array.prototype.toString` / `join(',')`: `null` elements render as
the empty string. -/
def JSValue.joinComma : List JSValue → String
  | [] => ""
  | [x] => match x with
    | .null => ""
    | x => JSValue.toStr x
  | x :: xs =>
    (match x with
     | .null => ""
     | x => JSValue.toStr x) ++ "," ++ JSValue.joinComma xs

end

/-- Value of a list of decimal digit characters. -/
def digitsVal (cs : List Char) : Nat :=
  cs.foldl (fun a c => a * 10 + (c.toNat - 48)) 0

/-- Parse an unsigned decimal literal `digits [. digits]` (the fragment of
JS numeric literals the repository stores); `none` when malformed. -/
def parseDecimal (cs : List Char) : Option ℚ :=
  let ip := cs.takeWhile Char.isDigit
  let rest := cs.dropWhile Char.isDigit
  match rest with
  | [] => if ip = [] then none else some ((digitsVal ip : ℤ) : ℚ)
  | '.' :: fs =>
    if fs.all Char.isDigit ∧ ¬(ip = [] ∧ fs = []) then
      some (((digitsVal ip : ℤ) : ℚ) + ((digitsVal fs : ℤ) : ℚ) / ((10 : ℚ) ^ fs.length))
    else none
  | _ => none

/-- Whitespace test for JS string-to-number trimming. -/
def isWsChar (c : Char) : Bool :=
  c = ' ' || c = '\t' || c = '\n' || c = '\r'

/-- Trim leading and trailing whitespace from a character list. -/
def trimWs (cs : List Char) : List Char :=
  ((cs.dropWhile isWsChar).reverse.dropWhile isWsChar).reverse

/-- JavaScript `Number(string)` coercion on the literal fragment the
repository uses: whitespace-trimmed, empty string is 0, optional sign,
`Infinity`, decimal literals; anything else is NaN. -/
def jsStringToNumber (s : String) : JSNum :=
  let t := trimWs s.data
  if t = [] then .fin 0
  else
    match t with
    | '-' :: r =>
      if r = "Infinity".data then .negInf
      else match parseDecimal r with
        | some q => .fin (-q)
        | none => .nan
    | '+' :: r =>
      if r = "Infinity".data then .posInf
      else match parseDecimal r with
        | some q => .fin q
        | none => .nan
    | r =>
      if r = "Infinity".data then .posInf
      else match parseDecimal r with
        | some q => .fin q
        | none => .nan

/-- JavaScript `Number(v)` coercion (arrays coerce via their string form,
objects to NaN). -/
def JSValue.toNumber : JSValue → JSNum
  | .null => .fin 0
  | .bool b => .fin (if b then 1 else 0)
  | .num n => n
  | .str s => jsStringToNumber s
  | .arr xs => jsStringToNumber (JSValue.toStr (.arr xs))
  | .obj _ => .nan

/-- JavaScript `Boolean(v)` coercion (truthiness). -/
def JSValue.toBool : JSValue → Bool
  | .null => false
  | .bool b => b
  | .num .nan => false
  | .num (.fin q) => decide (q ≠ 0)
  | .num _ => true
  | .str s => decide (s ≠ "")
  | .arr _ => true
  | .obj _ => true

/-! Regular expressions.  `validation.pattern` holds a JS regex source
string; the model stores the compiled form: the optional `^` / `$` anchors
plus a body AST covering the fragment the repository uses (literals,
character classes with ranges, alternation, repetition, wildcard). -/

/-- Regex body AST. -/
inductive Rx where
  | empt
  | eps
  | chr (c : Char)
  | anyc
  | cls (neg : Bool) (ranges : List (Char × Char))
  | seq (a b : Rx)
  | alt (a b : Rx)
  | star (a : Rx)
deriving DecidableEq, Repr

/-- Does the regex accept the empty string? -/
def Rx.nullable : Rx → Bool
  | .empt => false
  | .eps => true
  | .chr _ => false
  | .anyc => false
  | .cls _ _ => false
  | .seq a b => a.nullable && b.nullable
  | .alt a b => a.nullable || b.nullable
  | .star _ => true

/-- Character-class membership over a range list. -/
def inRanges (c : Char) (rs : List (Char × Char)) : Bool :=
  rs.any (fun p => decide (p.1 ≤ c) && decide (c ≤ p.2))

/-- Brzozowski derivative. -/
def Rx.deriv : Rx → Char → Rx
  | .empt, _ => .empt
  | .eps, _ => .empt
  | .chr c, x => if c = x then .eps else .empt
  | .anyc, _ => .eps
  | .cls neg rs, x => if inRanges x rs ≠ neg then .eps else .empt
  | .seq a b, x =>
    if a.nullable then .alt (.seq (a.deriv x) b) (b.deriv x) else .seq (a.deriv x) b
  | .alt a b, x => .alt (a.deriv x) (b.deriv x)
  | .star a, x => .seq (a.deriv x) (.star a)

/-- The regex matches the entire character list. -/
def Rx.matchExact : Rx → List Char → Bool
  | r, [] => r.nullable
  | r, c :: cs => (r.deriv c).matchExact cs

/-- The regex matches some (possibly empty) leading segment of the list. -/
def Rx.matchInit : Rx → List Char → Bool
  | r, [] => r.nullable
  | r, c :: cs => r.nullable || (r.deriv c).matchInit cs

/-- A compiled JS pattern: anchors plus body. -/
structure JSPattern where
  anchorStart : Bool
  anchorEnd : Bool
  body : Rx
deriving DecidableEq, Repr

/-- Match attempt starting at the current position, honouring `$`. -/
def matchAt (p : JSPattern) (cs : List Char) : Bool :=
  if p.anchorEnd then p.body.matchExact cs else p.body.matchInit cs

/-- Search: try every start position. -/
def searchList (p : JSPattern) : List Char → Bool
  | [] => matchAt p []
  | c :: cs => matchAt p (c :: cs) || searchList p cs

/-- JS `new RegExp(pattern).test(s)`: a search, not an anchored full
match — the match may start and end anywhere unless `^` / `$` appear in
the pattern itself. -/
def jsTest (p : JSPattern) (s : String) : Bool :=
  if p.anchorStart then matchAt p s.data else searchList p s.data

/-- Spec-side notion (from the claim's words, for comparison with the
code's `jsTest`): the entire candidate string is matched by the pattern
body. -/
def specFullMatch (p : JSPattern) (s : String) : Bool :=
  p.body.matchExact s.data

/-- `r{n}`: n-fold repetition, by expansion. -/
def Rx.pow (r : Rx) : Nat → Rx
  | 0 => .eps
  | n + 1 => .seq r (Rx.pow r n)

/-! JSON parsing (JS `JSON.parse`), as a fuel-bounded recursive-descent
parser over the JSON grammar: literals, numbers, strings (with the common
escapes), arrays and objects.  `none` means `JSON.parse` throws. -/

/-- Skip JSON whitespace. -/
def skipWs (cs : List Char) : List Char :=
  cs.dropWhile (fun c => c = ' ' || c = '\t' || c = '\n' || c = '\r')

/-- Translate a JSON string escape character. -/
def escChar (c : Char) : Char :=
  if c = 'n' then '\n'
  else if c = 't' then '\t'
  else if c = 'r' then '\r'
  else c

/-- Parse the remainder of a JSON string literal (after the opening
quote), accumulating characters. -/
def pStringAux : List Char → List Char → Option (String × List Char)
  | _, [] => none
  | acc, '"' :: r => some (String.mk acc.reverse, r)
  | acc, '\\' :: c :: r => pStringAux (escChar c :: acc) r
  | _, ['\\'] => none
  | acc, c :: r => pStringAux (c :: acc) r

/-- Parse a JSON number: `-`? digits (`.` digits)?. -/
def pNum (cs : List Char) : Option (JSValue × List Char) :=
  let (sgn, cs1) := match cs with
    | '-' :: r => ((-1 : ℚ), r)
    | r => ((1 : ℚ), r)
  let ds := cs1.takeWhile Char.isDigit
  let r1 := cs1.dropWhile Char.isDigit
  if ds = [] then none
  else
    match r1 with
    | '.' :: r2 =>
      let fs := r2.takeWhile Char.isDigit
      let r3 := r2.dropWhile Char.isDigit
      if fs = [] then none
      else
        some (.num (.fin (sgn * (((digitsVal ds : ℤ) : ℚ) +
          ((digitsVal fs : ℤ) : ℚ) / ((10 : ℚ) ^ fs.length)))), r3)
    | _ => some (.num (.fin (sgn * ((digitsVal ds : ℤ) : ℚ))), r1)

mutual

/-- Parse one JSON value (leading whitespace allowed). -/
def pJson : Nat → List Char → Option (JSValue × List Char)
  | 0, _ => none
  | f + 1, cs =>
    match skipWs cs with
    | 'n' :: 'u' :: 'l' :: 'l' :: r => some (.null, r)
    | 't' :: 'r' :: 'u' :: 'e' :: r => some (.bool true, r)
    | 'f' :: 'a' :: 'l' :: 's' :: 'e' :: r => some (.bool false, r)
    | '"' :: r =>
      match pStringAux [] r with
      | some (s, r2) => some (.str s, r2)
      | none => none
    | '[' :: r =>
      match skipWs r with
      | ']' :: r2 => some (.arr [], r2)
      | r2 =>
        match pArr f r2 with
        | some (xs, r3) => some (.arr xs, r3)
        | none => none
    | '\x7b' :: r =>
      match skipWs r with
      | '\x7d' :: r2 => some (.obj [], r2)
      | r2 =>
        match pObj f r2 with
        | some (fs, r3) => some (.obj fs, r3)
        | none => none
    | cs2 => pNum cs2

/-- Parse the comma-separated elements of a (nonempty) JSON array. -/
def pArr : Nat → List Char → Option (List JSValue × List Char)
  | 0, _ => none
  | f + 1, cs =>
    match pJson f cs with
    | none => none
    | some (v, r) =>
      match skipWs r with
      | ',' :: r2 =>
        match pArr f r2 with
        | some (xs, r3) => some (v :: xs, r3)
        | none => none
      | ']' :: r2 => some ([v], r2)
      | _ => none

/-- Parse the members of a (nonempty) JSON object. -/
def pObj : Nat → List Char → Option (List (String × JSValue) × List Char)
  | 0, _ => none
  | f + 1, cs =>
    match skipWs cs with
    | '"' :: r =>
      match pStringAux [] r with
      | none => none
      | some (k, r2) =>
        match skipWs r2 with
        | ':' :: r3 =>
          match pJson f r3 with
          | none => none
          | some (v, r4) =>
            match skipWs r4 with
            | ',' :: r5 =>
              match pObj f r5 with
              | some (fs, r6) => some ((k, v) :: fs, r6)
              | none => none
            | '\x7d' :: r5 => some ([(k, v)], r5)
            | _ => none
        | _ => none
    | _ => none

end

/-- JS `JSON.parse(s)`: `none` when it throws. -/
def jsonParse (s : String) : Option JSValue :=
  match pJson (s.length + 1) s.data with
  | some (v, r) => if skipWs r = [] then some v else none
  | none => none

/-! The `Configuration` schema (`backend/models/Configuration.js`). -/

/-- The `type` enum of a configuration entry. -/
inductive CType where
  | string
  | number
  | boolean
  | array
  | object
  | json
deriving DecidableEq, Repr

/-- The `validation` sub-document.  The schema declares it as a nested
object whose `required` path defaults to `true`, so the sub-document is
always present (the `if (!validation)` guard in `validateValue` is dead
for persisted documents) and `required` is `true` unless explicitly set.
`pattern` is stored compiled (`''` compiles to a regex matching
everywhere, which behaves the same as no pattern, so it needs no special
case). -/
structure Validation where
  min : Option ℚ := none
  max : Option ℚ := none
  pattern : Option JSPattern := none
  options : Option (List String) := none
  required : Bool := true
deriving Repr

/-- One configuration entry.  `lastModifiedBy` is the ObjectId of the
modifying admin, modelled as a `Nat` token.  Field defaults mirror the
schema defaults (`isPublic false`, `isEditable true`, `version 1`). -/
structure Config where
  key : String
  value : JSValue
  type : CType
  category : String
  description : String
  isPublic : Bool := false
  isEditable : Bool := true
  validation : Validation := {}
  defaultValue : Option JSValue := none
  lastModifiedBy : Nat
  tags : List String := []
  version : Nat := 1
deriving Repr

/-- Result of `validateValue`: `{ isValid, errors }`. -/
structure VResult where
  isValid : Bool
  errors : List String
deriving DecidableEq, Repr

/-- The `value === null || value === undefined || value === ''` test of the
required rule (`undefined` cannot reach `validateValue` through a JSON
body, see `JSValue`). -/
def isEmptyCandidate : JSValue → Bool
  | .null => true
  | .str s => decide (s = "")
  | _ => false

/-- `ConfigurationSchema.methods.validateValue` — accumulates all violated
rules in source order: required, number (NaN / min / max), string
(min / max length, pattern), array options. -/
def validateValue (c : Config) (value : JSValue) : VResult :=
  let validation := c.validation
  let e1 :=
    if validation.required && isEmptyCandidate value then
      ["This field is required"]
    else []
  let e2 :=
    if c.type = .number then
      let numValue := JSValue.toNumber value
      if numValue = .nan then ["Value must be a valid number"]
      else
        (match validation.min with
         | some m =>
           if JSNum.ltb numValue (.fin m) then
             ["Value must be at least " ++ ratToString m]
           else []
         | none => []) ++
        (match validation.max with
         | some m =>
           if JSNum.gtb numValue (.fin m) then
             ["Value must be at most " ++ ratToString m]
           else []
         | none => [])
    else []
  let e3 :=
    if c.type = .string then
      let strValue := JSValue.toStr value
      (match validation.min with
       | some m =>
         if (strValue.length : ℚ) < m then
           ["Value must be at least " ++ ratToString m ++ " characters"]
         else []
       | none => []) ++
      (match validation.max with
       | some m =>
         if (strValue.length : ℚ) > m then
           ["Value must be at most " ++ ratToString m ++ " characters"]
         else []
       | none => []) ++
      (match validation.pattern with
       | some p =>
         if jsTest p strValue = false then
           ["Value does not match required pattern"]
         else []
       | none => [])
    else []
  let e4 :=
    if c.type = .array then
      match validation.options with
      | some opts =>
        match value with
        | .arr xs =>
          let invalidOptions := xs.filter (fun v => ¬ opts.any (fun o => JSValue.beq v (.str o)))
          if invalidOptions.length > 0 then
            ["Invalid options: " ++
              String.intercalate ", " (invalidOptions.map (fun v =>
                match v with
                | .null => ""
                | v => JSValue.toStr v))]
          else []
        | _ => ["Value must be an array"]
      | none => []
    else []
  let errors := e1 ++ e2 ++ e3 ++ e4
  { isValid := errors.isEmpty, errors := errors }

/-- The `formattedValue` virtual.  `JSON.parse` failure on a `json` entry
stored as a malformed string is an exception, modelled as `.error`; every
other branch is total. -/
def formattedValue (c : Config) : Except String JSValue :=
  match c.type with
  | .json =>
    match c.value with
    | .str s =>
      match jsonParse s with
      | some v => .ok v
      | none => .error "Unexpected token in JSON"
    | v => .ok v
  | .array =>
    .ok (match c.value with
         | .arr xs => .arr xs
         | _ => .arr [])
  | .number => .ok (.num (JSValue.toNumber c.value))
  | .boolean => .ok (.bool (JSValue.toBool c.value))
  | _ => .ok (.str (JSValue.toStr c.value))

/-! The configuration router (`routes/configurations.js`). -/

/-- The persisted collection, in insertion order (`findOne` takes the
first match, as MongoDB does on an unsorted query). -/
abbrev Store := List Config

/-- `Configuration.findOne({ key })`. -/
def lookup (s : Store) (key : String) : Option Config :=
  s.find? (fun c => decide (c.key = key))

/-- Persisting a modified document: replace the first entry with that key. -/
def replaceFirst : Store → String → Config → Store
  | [], _, _ => []
  | c :: cs, k, n => if c.key = k then n :: cs else c :: replaceFirst cs k n

/-- `findByIdAndDelete`: remove the (first) entry with that key. -/
def removeFirst : Store → String → Store
  | [], _ => []
  | c :: cs, k => if c.key = k then cs else c :: removeFirst cs k

/-- express-validator `notEmpty()` emptiness after its string conversion:
`''`, `null`, `NaN` and arrays whose first element converts to `''` (in
particular `[]`) are empty; everything else is non-empty. -/
def gateEmpty : JSValue → Bool
  | .str "" => true
  | .null => true
  | .num .nan => true
  | .arr [] => true
  | .arr (x :: _) => gateEmpty x
  | _ => false

/-- Responses, by shape: `ok` (2xx), `okBulk` (the bulk 2xx envelope with
per-key results and errors), `gateErr` (400 from express-validator),
`notFound` (404), `notEditable` / `noDefault` / `invalid` / `dup` (the
router's 400s), `serverError` (500, e.g. a failed `save()`). -/
inductive Resp where
  | ok
  | okBulk (results : List String) (errors : List (String × String))
  | gateErr (msgs : List String)
  | notFound
  | notEditable
  | noDefault
  | invalid (errs : List String)
  | dup
  | serverError
deriving DecidableEq, Repr

/-- `config.save()`: the `pre('save')` hook re-runs `validateValue` on the
value when (and only when) the value path is modified — mongoose marks it
modified exactly when the assigned value differs from the stored one. -/
def trySave (s : Store) (c0 c1 : Config) : Resp × Store :=
  if JSValue.beq c1.value c0.value = false ∧ (validateValue c1 c1.value).isValid = false
  then (.serverError, s)
  else (.ok, replaceFirst s c0.key c1)

/-- Body of a `PUT /:key` request (absent fields are `none`). -/
structure UpdateReq where
  value : Option JSValue := none
  description : Option String := none
  isPublic : Option Bool := none
  tags : Option (List String) := none

/-- The express-validator chain of `PUT /:key`:
`body('value').optional().notEmpty()`,
`body('description').optional().notEmpty()`. -/
def updateGate (r : UpdateReq) : List String :=
  (match r.value with
   | some v => if gateEmpty v then ["Value cannot be empty"] else []
   | none => []) ++
  (match r.description with
   | some d => if d = "" then ["Description cannot be empty"] else []
   | none => [])

/-- Field assignment done by `PUT /:key` before `save()`. -/
def applyUpdateFields (c : Config) (r : UpdateReq) (userId : Nat) : Config :=
  { c with
    value := r.value.getD c.value,
    description := r.description.getD c.description,
    isPublic := r.isPublic.getD c.isPublic,
    tags := r.tags.getD c.tags,
    lastModifiedBy := userId,
    version := c.version + 1 }

/-- `PUT /api/configurations/:key`. -/
def updateRoute (s : Store) (key : String) (r : UpdateReq) (userId : Nat) :
    Resp × Store :=
  let g := updateGate r
  if g ≠ [] then (.gateErr g, s)
  else
    match lookup s key with
    | none => (.notFound, s)
    | some c =>
      if c.isEditable = false then (.notEditable, s)
      else
        match r.value with
        | some v =>
          let vr := validateValue c v
          if vr.isValid = false then (.invalid vr.errors, s)
          else trySave s c (applyUpdateFields c r userId)
        | none => trySave s c (applyUpdateFields c r userId)

/-- `DELETE /api/configurations/:key`. -/
def deleteRoute (s : Store) (key : String) : Resp × Store :=
  match lookup s key with
  | none => (.notFound, s)
  | some c =>
    if c.isEditable = false then (.notEditable, s)
    else (.ok, removeFirst s key)

/-- `POST /api/configurations/reset/:key`.  Note: no `isEditable` check,
and the default check is JS truthiness (`!configuration.defaultValue`). -/
def resetRoute (s : Store) (key : String) (userId : Nat) : Resp × Store :=
  match lookup s key with
  | none => (.notFound, s)
  | some c =>
    match c.defaultValue with
    | none => (.noDefault, s)
    | some d =>
      if JSValue.toBool d = false then (.noDefault, s)
      else trySave s c { c with value := d, lastModifiedBy := userId, version := c.version + 1 }

/-- The express-validator chain of `POST /bulk-update`:
`body('configurations.*.key').notEmpty()` and
`body('configurations.*.value').notEmpty()` — a single offending item
rejects the whole request before any item is processed. -/
def bulkGateMsgs (items : List (String × JSValue)) : List String :=
  (if items.any (fun it => decide (it.1 = "")) then
    ["Key is required for each configuration"]
   else []) ++
  (if items.any (fun it => gateEmpty it.2) then
    ["Value is required for each configuration"]
   else [])

/-- The per-item loop of `POST /bulk-update`: each item is looked up,
checked and saved independently; a failure is recorded under its key and
processing continues.  Returns (results, errors, final store). -/
def bulkGo (userId : Nat) : Store → List (String × JSValue) →
    List String × List (String × String) × Store
  | s, [] => ([], [], s)
  | s, (k, v) :: rest =>
    match lookup s k with
    | none =>
      let (rs, es, s') := bulkGo userId s rest
      (rs, (k, "Configuration not found") :: es, s')
    | some c =>
      if c.isEditable = false then
        let (rs, es, s') := bulkGo userId s rest
        (rs, (k, "Configuration is not editable") :: es, s')
      else
        let vr := validateValue c v
        if vr.isValid = false then
          let (rs, es, s') := bulkGo userId s rest
          (rs, (k, "Validation failed: " ++ String.intercalate ", " vr.errors) :: es, s')
        else
          let c1 := { c with value := v, lastModifiedBy := userId, version := c.version + 1 }
          match trySave s c c1 with
          | (.ok, s1) =>
            let (rs, es, s') := bulkGo userId s1 rest
            (k :: rs, es, s')
          | (_, s1) =>
            let (rs, es, s') := bulkGo userId s1 rest
            (rs, (k, "Validation failed: " ++
              String.intercalate ", " (validateValue c1 c1.value).errors) :: es, s')

/-- `POST /api/configurations/bulk-update`. -/
def bulkRoute (s : Store) (items : List (String × JSValue)) (userId : Nat) :
    Resp × Store :=
  let gm := bulkGateMsgs items
  if gm ≠ [] then (.gateErr gm, s)
  else
    let (rs, es, s') := bulkGo userId s items
    (.okBulk rs es, s')

/-- `if (category) filter.category = category`: an absent or empty (falsy)
query parameter applies no category filter. -/
def catMatch (cat : Option String) (c : Config) : Bool :=
  match cat with
  | none => true
  | some q => if q = "" then true else decide (c.category = q)

/-- The `configurations.forEach(config => configObject[config.key] =
config.formattedValue)` aggregation: a thrown `formattedValue` aborts the
request (500). -/
def publicPairs : List Config → Except String (List (String × JSValue))
  | [] => .ok []
  | c :: cs =>
    match formattedValue c with
    | .error e => .error e
    | .ok v =>
      match publicPairs cs with
      | .error e => .error e
      | .ok rest => .ok ((c.key, v) :: rest)

/-- `GET /api/configurations/public`: entries with `isPublic = true`,
optionally category-filtered, collapsed to key → formattedValue pairs.
(The source also sorts by `(category, key)`, which only fixes iteration
order; keys are unique in a real collection, so the map content stated
below is order-independent and the sort is not modelled.) -/
def publicRoute (s : Store) (cat : Option String) :
    Except String (List (String × JSValue)) :=
  publicPairs (s.filter (fun c => c.isPublic && catMatch cat c))

/-- Body of `POST /api/configurations` after destructuring with the
route's defaults (`isPublic = false`, `isEditable = true`,
`validation = {}`, `tags = []`). -/
structure CreateReq where
  key : String
  value : JSValue
  type : CType
  category : String
  description : String
  isPublic : Bool := false
  isEditable : Bool := true
  validation : Validation := {}
  defaultValue : Option JSValue := none
  tags : List String := []

/-- The express-validator chain of `POST /` (`key`, `value`, `description`
non-empty; `type` and `category` are enum-checked, which the typed model
guarantees). -/
def createGate (r : CreateReq) : Bool :=
  decide (r.key = "") || gateEmpty r.value || decide (r.description = "")

/-- The document constructed by `POST /`: request fields plus
`lastModifiedBy` and the schema defaults — `version` starts at 1. -/
def createdConfig (r : CreateReq) (userId : Nat) : Config :=
  { key := r.key, value := r.value, type := r.type,
    category := r.category, description := r.description,
    isPublic := r.isPublic, isEditable := r.isEditable,
    validation := r.validation, defaultValue := r.defaultValue,
    tags := r.tags, lastModifiedBy := userId, version := 1 }

/-- `POST /api/configurations`: duplicate-key rejection, then `save()`
(a brand-new document has every path modified, so the pre-save hook
validates the value). -/
def createRoute (s : Store) (r : CreateReq) (userId : Nat) : Resp × Store :=
  if createGate r then (.gateErr ["create body invalid"], s)
  else
    match lookup s r.key with
    | some _ => (.dup, s)
    | none =>
      let c := createdConfig r userId
      if (validateValue c c.value).isValid = false then (.serverError, s)
      else (.ok, s ++ [c])

/-- One mutating API operation aimed at a fixed key: an update request, a
single bulk-update item, or a reset. -/
inductive Mut where
  | upd (r : UpdateReq)
  | blk (v : JSValue)
  | rst

/-- Apply one mutation; `some` exactly when the operation succeeded (for a
bulk item: it landed in `results`, not `errors`). -/
def applyMut (k : String) (userId : Nat) (s : Store) : Mut → Option Store
  | .upd r =>
    match updateRoute s k r userId with
    | (.ok, s') => some s'
    | _ => none
  | .blk v =>
    match bulkRoute s [(k, v)] userId with
    | (.okBulk (_ :: _) [], s') => some s'
    | _ => none
  | .rst =>
    match resetRoute s k userId with
    | (.ok, s') => some s'
    | _ => none

/-- Apply a sequence of mutations, all of which must succeed. -/
def applyMuts (k : String) (userId : Nat) : Store → List Mut → Option Store
  | s, [] => some s
  | s, m :: ms =>
    match applyMut k userId s m with
    | some s' => applyMuts k userId s' ms
    | none => none


/-- The shape fields of an entry that the bulk loop can never change: it
writes only `value`, `lastModifiedBy` and `version`. -/
def shapeEq (a b : Config) : Prop :=
  a.key = b.key ∧ a.type = b.type ∧ a.validation = b.validation ∧
    a.isEditable = b.isEditable

/-- Two stores that agree, key by key, on presence and on every shape
field.  The store evolving inside a bulk update stays in this relation
with the store the batch started from. -/
def LookupShapeEq (s0 s : Store) : Prop :=
  (∀ k, lookup s0 k = none ↔ lookup s k = none) ∧
  (∀ k c0 c, lookup s0 k = some c0 → lookup s k = some c → shapeEq c0 c)

/-- The per-item classification of the bulk loop (found, editable, value
valid), read off a store. -/
def itemApplies (s : Store) (it : String × JSValue) : Bool :=
  match lookup s it.1 with
  | none => false
  | some c => c.isEditable && (validateValue c it.2).isValid

/-- The per-item error entry the bulk loop records, when the item does
not apply. -/
def itemError (s : Store) (it : String × JSValue) : Option (String × String) :=
  match lookup s it.1 with
  | none => some (it.1, "Configuration not found")
  | some c =>
    if c.isEditable = false then some (it.1, "Configuration is not editable")
    else if (validateValue c it.2).isValid = false then
      some (it.1, "Validation failed: " ++
        String.intercalate ", " (validateValue c it.2).errors)
    else none

/-- The items of a batch that target key `k` and apply (used to state the
net effect of a bulk update on one entry). -/
def keyAppliesPred (s0 : Store) (k : String) : String × JSValue → Bool :=
  fun it => decide (it.1 = k) && itemApplies s0 it

/-! Concrete entries used to instantiate the theorems below. -/

/-- A non-editable entry with a truthy default (for C1). -/
def c1x : Config :=
  { key := "k", value := .str "v", type := .string, category := "system",
    description := "locked", isEditable := false,
    defaultValue := some (.str "d"), lastModifiedBy := 1 }

/-- A non-editable entry (for the C1 witness). -/
def c1w : Config :=
  { key := "locked_key", value := .num (.fin 3), type := .number,
    category := "security", description := "locked", isEditable := false,
    defaultValue := none, lastModifiedBy := 1 }

/-- The seeded `maintenance_mode` entry: `defaultValue: false` (for C2). -/
def c2x : Config :=
  { key := "maintenance_mode", value := .bool true, type := .boolean,
    category := "system", description := "Enable maintenance mode",
    isPublic := true, defaultValue := some (.bool false), lastModifiedBy := 1 }

/-- An entry with no default (for the C2 witness). -/
def c2wa : Config :=
  { key := "nodef", value := .str "x", type := .string, category := "system",
    description := "no default", defaultValue := none, lastModifiedBy := 1 }

/-- The seeded `assignment_late_penalty` entry (for the C2 witness). -/
def c2wb : Config :=
  { key := "assignment_late_penalty", value := .num (.fin 15), type := .number,
    category := "assignment", description := "Late submission penalty percentage",
    isPublic := true, validation := { min := some 0, max := some 100 },
    defaultValue := some (.num (.fin 10)), lastModifiedBy := 1 }

/-- A fresh boolean entry (for the C3 witness). -/
def c3w : Config :=
  { key := "flag", value := .bool true, type := .boolean, category := "system",
    description := "a flag", defaultValue := some (.bool true),
    lastModifiedBy := 1 }

/-- A string entry whose pattern has no anchors: the JS source would be
`new RegExp('a')` (for C4). -/
def c4x : Config :=
  { key := "p", value := .str "x", type := .string, category := "ui",
    description := "pat",
    validation := { pattern := some { anchorStart := false, anchorEnd := false, body := .chr 'a' } },
    lastModifiedBy := 1 }

/-- The compiled form of the seeded pattern `^#[0-9A-Fa-f]\x7b6\x7d$`. -/
def hexColorPat : JSPattern :=
  { anchorStart := true, anchorEnd := true,
    body := .seq (.chr '#') (Rx.pow (.cls false [('0', '9'), ('A', 'F'), ('a', 'f')]) 6) }

/-- The seeded `theme_primary_color` entry (for the C4 witness). -/
def c4w : Config :=
  { key := "theme_primary_color", value := .str "#3B82F6", type := .string,
    category := "ui", description := "Primary theme color (hex)",
    isPublic := true, validation := { pattern := some hexColorPat },
    lastModifiedBy := 1 }

/-- A number entry with inclusive bounds 0..100 (for C5). -/
def c5x : Config :=
  { key := "pen", value := .num (.fin 15), type := .number,
    category := "assignment", description := "penalty",
    validation := { min := some 0, max := some 100 }, lastModifiedBy := 1 }

/-- A number entry with inclusive bounds 0..100 (for the C5 witness). -/
def c5w : Config :=
  { key := "att", value := .num (.fin 75), type := .number,
    category := "attendance", description := "required percentage",
    validation := { min := some 0, max := some 100 }, lastModifiedBy := 1 }

/-- A number entry whose default 150 violates its own 0..100 rules, as if
the rules were tightened after seeding (for C6). -/
def c6x : Config :=
  { key := "pen6", value := .num (.fin 15), type := .number,
    category := "assignment", description := "penalty",
    validation := { min := some 0, max := some 100 },
    defaultValue := some (.num (.fin 150)), lastModifiedBy := 1 }

/-- Same shape as `c6x`, different key (for the C6 witness). -/
def c6w : Config :=
  { key := "cap6", value := .num (.fin 50), type := .number,
    category := "course", description := "capacity",
    validation := { min := some 1, max := some 1000 },
    defaultValue := some (.num (.fin 5000)), lastModifiedBy := 1 }

/-- A public entry (for the C7 witness). -/
def c7wPub : Config :=
  { key := "site_name", value := .str "EduManage", type := .string,
    category := "system", description := "Name of the system",
    isPublic := true, lastModifiedBy := 1 }

/-- A private entry (for the C7 witness). -/
def c7wPriv : Config :=
  { key := "session_timeout", value := .num (.fin 3600), type := .number,
    category := "security", description := "Session timeout",
    isPublic := false, lastModifiedBy := 1 }

/-- A number entry with bounds (for the C8 witness). -/
def c8w : Config :=
  { key := "late_pen", value := .num (.fin 15), type := .number,
    category := "assignment", description := "penalty",
    validation := { min := some 0, max := some 100 },
    defaultValue := some (.num (.fin 10)), lastModifiedBy := 1 }

/-- An editable, valid entry (for C9). -/
def c9x : Config :=
  { key := "a", value := .bool true, type := .boolean, category := "system",
    description := "flag a", lastModifiedBy := 1 }

/-- An editable, valid entry (for the C9 witness). -/
def c9w : Config :=
  { key := "b", value := .bool true, type := .boolean, category := "system",
    description := "flag b", lastModifiedBy := 1 }

/-- A `json` entry whose stored value is the malformed string `"\x7b"`
(for C10). -/
def c10j : Config :=
  { key := "j", value := .str "\x7b", type := .json, category := "system",
    description := "json cfg", lastModifiedBy := 1 }

/-- An `array` entry whose stored value is not an array (for C10). -/
def c10a : Config :=
  { key := "arr", value := .num (.fin 5), type := .array, category := "ui",
    description := "widgets", lastModifiedBy := 1 }

/-! Lemmas about the embedding. -/

mutual

theorem JSValue.beq_refl : ∀ (a : JSValue), JSValue.beq a a = true
  | .null => rfl
  | .bool a => by simp [JSValue.beq]
  | .num a => by simp [JSValue.beq]
  | .str a => by simp [JSValue.beq]
  | .arr xs => by simp [JSValue.beq, JSValue.beqList_refl xs]
  | .obj fs => by simp [JSValue.beq, JSValue.beqFields_refl fs]

theorem JSValue.beqList_refl : ∀ (xs : List JSValue), JSValue.beqList xs xs = true
  | [] => rfl
  | a :: as => by simp [JSValue.beqList, JSValue.beq_refl a, JSValue.beqList_refl as]

theorem JSValue.beqFields_refl : ∀ (fs : List (String × JSValue)),
    JSValue.beqFields fs fs = true
  | [] => rfl
  | (k, v) :: fs => by
    simp [JSValue.beqFields, JSValue.beq_refl v, JSValue.beqFields_refl fs]

end

mutual

theorem JSValue.eq_of_beq : ∀ (a b : JSValue), JSValue.beq a b = true → a = b
  | .null, .null, _ => rfl
  | .null, .bool _, h => by simp [JSValue.beq] at h
  | .null, .num _, h => by simp [JSValue.beq] at h
  | .null, .str _, h => by simp [JSValue.beq] at h
  | .null, .arr _, h => by simp [JSValue.beq] at h
  | .null, .obj _, h => by simp [JSValue.beq] at h
  | .bool _, .null, h => by simp [JSValue.beq] at h
  | .bool a, .bool b, h => by simp [JSValue.beq] at h; rw [h]
  | .bool _, .num _, h => by simp [JSValue.beq] at h
  | .bool _, .str _, h => by simp [JSValue.beq] at h
  | .bool _, .arr _, h => by simp [JSValue.beq] at h
  | .bool _, .obj _, h => by simp [JSValue.beq] at h
  | .num _, .null, h => by simp [JSValue.beq] at h
  | .num _, .bool _, h => by simp [JSValue.beq] at h
  | .num a, .num b, h => by simp [JSValue.beq] at h; rw [h]
  | .num _, .str _, h => by simp [JSValue.beq] at h
  | .num _, .arr _, h => by simp [JSValue.beq] at h
  | .num _, .obj _, h => by simp [JSValue.beq] at h
  | .str _, .null, h => by simp [JSValue.beq] at h
  | .str _, .bool _, h => by simp [JSValue.beq] at h
  | .str _, .num _, h => by simp [JSValue.beq] at h
  | .str a, .str b, h => by simp [JSValue.beq] at h; rw [h]
  | .str _, .arr _, h => by simp [JSValue.beq] at h
  | .str _, .obj _, h => by simp [JSValue.beq] at h
  | .arr _, .null, h => by simp [JSValue.beq] at h
  | .arr _, .bool _, h => by simp [JSValue.beq] at h
  | .arr _, .num _, h => by simp [JSValue.beq] at h
  | .arr _, .str _, h => by simp [JSValue.beq] at h
  | .arr xs, .arr ys, h =>
    congrArg JSValue.arr (JSValue.eqList_of_beqList xs ys (by simpa [JSValue.beq] using h))
  | .arr _, .obj _, h => by simp [JSValue.beq] at h
  | .obj _, .null, h => by simp [JSValue.beq] at h
  | .obj _, .bool _, h => by simp [JSValue.beq] at h
  | .obj _, .num _, h => by simp [JSValue.beq] at h
  | .obj _, .str _, h => by simp [JSValue.beq] at h
  | .obj _, .arr _, h => by simp [JSValue.beq] at h
  | .obj fs, .obj gs, h =>
    congrArg JSValue.obj (JSValue.eqFields_of_beqFields fs gs (by simpa [JSValue.beq] using h))

theorem JSValue.eqList_of_beqList : ∀ (xs ys : List JSValue),
    JSValue.beqList xs ys = true → xs = ys
  | [], [], _ => rfl
  | [], _ :: _, h => by simp [JSValue.beqList] at h
  | _ :: _, [], h => by simp [JSValue.beqList] at h
  | a :: as, b :: bs, h => by
    have h' : JSValue.beq a b = true ∧ JSValue.beqList as bs = true := by
      simpa [JSValue.beqList, Bool.and_eq_true] using h
    rw [JSValue.eq_of_beq a b h'.1, JSValue.eqList_of_beqList as bs h'.2]

theorem JSValue.eqFields_of_beqFields : ∀ (fs gs : List (String × JSValue)),
    JSValue.beqFields fs gs = true → fs = gs
  | [], [], _ => rfl
  | [], _ :: _, h => by simp [JSValue.beqFields] at h
  | _ :: _, [], h => by simp [JSValue.beqFields] at h
  | (k1, v1) :: fs, (k2, v2) :: gs, h => by
    have h' : (k1 == k2) = true ∧ JSValue.beq v1 v2 = true ∧
        JSValue.beqFields fs gs = true := by
      simpa [JSValue.beqFields, Bool.and_eq_true, and_assoc] using h
    have hk : k1 = k2 := by simpa using h'.1
    rw [hk, JSValue.eq_of_beq v1 v2 h'.2.1, JSValue.eqFields_of_beqFields fs gs h'.2.2]

end

/-- `beq` is complete for inequality: distinct values test unequal. -/
theorem JSValue.beq_eq_false_of_ne {a b : JSValue} (h : a ≠ b) :
    JSValue.beq a b = false := by
  cases hb : JSValue.beq a b with
  | false => rfl
  | true => exact absurd (JSValue.eq_of_beq a b hb) h

/-! Store lemmas. -/

theorem lookup_nil (k : String) : lookup ([] : Store) k = none := rfl

theorem lookup_cons (c : Config) (cs : Store) (k : String) :
    lookup (c :: cs) k = if c.key = k then some c else lookup cs k := by
  by_cases h : c.key = k <;> simp [lookup, List.find?, h]

theorem lookup_key {s : Store} {k : String} {c : Config}
    (h : lookup s k = some c) : c.key = k := by
  induction s with
  | nil => simp [lookup] at h
  | cons a as ih =>
    rw [lookup_cons] at h
    by_cases ha : a.key = k
    · rw [if_pos ha] at h
      cases h
      exact ha
    · rw [if_neg ha] at h
      exact ih h

theorem lookup_replaceFirst_self {s : Store} {k : String} {c c1 : Config}
    (h : lookup s k = some c) (hk : c1.key = k) :
    lookup (replaceFirst s k c1) k = some c1 := by
  induction s with
  | nil => simp [lookup] at h
  | cons a as ih =>
    rw [lookup_cons] at h
    by_cases ha : a.key = k
    · simp [replaceFirst, ha, lookup_cons, hk]
    · rw [if_neg ha] at h
      simp [replaceFirst, ha, lookup_cons, ih h]

theorem lookup_replaceFirst_ne {s : Store} {k k2 : String} {c1 : Config}
    (hne : k2 ≠ k) (hk : c1.key = k) :
    lookup (replaceFirst s k c1) k2 = lookup s k2 := by
  induction s with
  | nil => simp [replaceFirst]
  | cons a as ih =>
    by_cases ha : a.key = k
    · have hc1 : ¬ c1.key = k2 := by rw [hk]; exact fun he => hne he.symm
      have ha2 : ¬ a.key = k2 := by rw [ha]; exact fun he => hne he.symm
      have hkk : ¬ k = k2 := fun he => hne he.symm
      simp [replaceFirst, ha, lookup_cons, hc1, ha2, hkk]
    · simp [replaceFirst, ha, lookup_cons, ih]

theorem lookup_append_of_none {s : Store} {k : String}
    (h : lookup s k = none) (c : Config) :
    lookup (s ++ [c]) k = if c.key = k then some c else none := by
  induction s with
  | nil => simp [lookup_cons, lookup_nil]
  | cons a as ih =>
    rw [lookup_cons] at h
    by_cases ha : a.key = k
    · rw [if_pos ha] at h
      cases h
    · rw [if_neg ha] at h
      simp [lookup_cons, ha, ih h]

/-- `isValid` is by construction the emptiness of `errors`. -/
theorem validateValue_isValid_eq (c : Config) (v : JSValue) :
    (validateValue c v).isValid = (validateValue c v).errors.isEmpty := rfl

/-- An invalid result carries at least one error message. -/
theorem validateValue_errors_ne_nil {c : Config} {v : JSValue}
    (h : (validateValue c v).isValid = false) :
    (validateValue c v).errors ≠ [] := by
  intro he
  rw [validateValue_isValid_eq, he] at h
  cases h

/-! C10. -/

/-- C10: `formattedValue` is not total: a `json` entry whose stored value
is a string that `JSON.parse` rejects makes `formattedValue` throw
(modelled as `.error`), whereas an `array` entry totally yields `[]` on
any non-array stored value. -/
theorem C10_formattedValue_partiality :
    (∀ (c : Config) (s0 : String), c.type = .json → c.value = .str s0 →
      jsonParse s0 = none → ∃ e, formattedValue c = .error e) ∧
    (∀ c : Config, c.type = .array → (∀ xs, c.value ≠ .arr xs) →
      formattedValue c = .ok (.arr [])) := by
  constructor
  · intro c s0 ht hv hp
    refine ⟨"Unexpected token in JSON", ?_⟩
    simp [formattedValue, ht, hv, hp]
  · intro c ht hv
    cases hcv : c.value
    case arr xs => exact absurd hcv (hv xs)
    all_goals simp [formattedValue, ht, hcv]

/-- Witness for C10: the concrete malformed-JSON entry `c10j` throws and
the concrete non-array `array` entry `c10a` yields `[]`. -/
theorem C10_formattedValue_witness :
    (∃ e, formattedValue c10j = .error e) ∧ formattedValue c10a = .ok (.arr []) :=
  ⟨C10_formattedValue_partiality.1 c10j "\x7b" rfl rfl rfl,
   C10_formattedValue_partiality.2 c10a rfl (fun xs h => nomatch h)⟩

/-! C7. -/

/-- Content of `publicPairs` on success: exactly one pair per input entry,
carrying its key and formatted value. -/
theorem publicPairs_spec {l : List Config} {m : List (String × JSValue)}
    (h : publicPairs l = .ok m) :
    (∀ p ∈ m, ∃ c ∈ l, c.key = p.1 ∧ formattedValue c = .ok p.2) ∧
    (∀ c ∈ l, ∃ v, (c.key, v) ∈ m) := by
  induction l generalizing m with
  | nil =>
    cases h
    exact ⟨fun p hp => absurd hp (List.not_mem_nil p), fun c hc => absurd hc (List.not_mem_nil c)⟩
  | cons c0 cs ih =>
    rw [publicPairs] at h
    cases hf : formattedValue c0 with
    | error e => rw [hf] at h; cases h
    | ok v0 =>
      rw [hf] at h
      cases hr : publicPairs cs with
      | error e => rw [hr] at h; cases h
      | ok rest =>
        rw [hr] at h
        cases h
        obtain ⟨ih1, ih2⟩ := ih hr
        constructor
        · intro p hp
          rcases List.mem_cons.mp hp with hp | hp
          · exact ⟨c0, List.mem_cons_self c0 cs, by rw [hp], by rw [hp]; exact hf⟩
          · obtain ⟨c, hc, hk, hfv⟩ := ih1 p hp
            exact ⟨c, List.mem_cons_of_mem c0 hc, hk, hfv⟩
        · intro c hc
          rcases List.mem_cons.mp hc with hc | hc
          · exact ⟨v0, by rw [hc]; exact List.mem_cons_self _ _⟩
          · obtain ⟨v, hv⟩ := ih2 c hc
            exact ⟨v, List.mem_cons_of_mem _ hv⟩

/-- C7: whenever the public endpoint responds, the returned flat mapping
contains exactly the `isPublic = true` entries matching the category
filter — in particular no entry with `isPublic = false` ever appears —
and maps each key to the entry's `formattedValue`. -/
theorem C7_public_endpoint_exact :
    ∀ (s : Store) (cat : Option String) (m : List (String × JSValue)),
      publicRoute s cat = .ok m →
      (∀ p ∈ m, ∃ c ∈ s, c.isPublic = true ∧ catMatch cat c = true ∧
        c.key = p.1 ∧ formattedValue c = .ok p.2) ∧
      (∀ c ∈ s, c.isPublic = true → catMatch cat c = true →
        ∃ v, (c.key, v) ∈ m) := by
  intro s cat m h
  obtain ⟨h1, h2⟩ := publicPairs_spec h
  constructor
  · intro p hp
    obtain ⟨c, hc, hk, hfv⟩ := h1 p hp
    obtain ⟨hcs, hcond⟩ := List.mem_filter.mp hc
    rw [Bool.and_eq_true] at hcond
    exact ⟨c, hcs, hcond.1, hcond.2, hk, hfv⟩
  · intro c hc hpub hcat
    exact h2 c (List.mem_filter.mpr ⟨hc, by rw [Bool.and_eq_true]; exact ⟨hpub, hcat⟩⟩)

/-- Witness for C7: on the concrete two-entry store, the response contains
the public `site_name` and not the private `session_timeout`. -/
theorem C7_public_endpoint_witness :
    (∀ p ∈ [("site_name", JSValue.str "EduManage")],
      ∃ c ∈ [c7wPub, c7wPriv], c.isPublic = true ∧ catMatch none c = true ∧
        c.key = p.1 ∧ formattedValue c = .ok p.2) ∧
    (∀ c ∈ [c7wPub, c7wPriv], c.isPublic = true → catMatch none c = true →
      ∃ v, (c.key, v) ∈ [("site_name", JSValue.str "EduManage")]) :=
  C7_public_endpoint_exact [c7wPub, c7wPriv] none
    [("site_name", JSValue.str "EduManage")] rfl

/-! C5. -/

/-- Counterexample to C5 as stated: on `c5x` (type `number`, bounds
`[0, 100]`, schema-default `required = true`) the candidate `''` coerces
to the in-bounds finite number 0, yet `validateValue` rejects it (the
required rule fires on the empty string), so "accepts every candidate
whose coercion lies within [min, max]" is false. -/
theorem C5_required_empty_counterexample :
    c5x.validation.min = some 0 ∧ c5x.validation.max = some 100 ∧
    JSValue.toNumber (.str "") = .fin 0 ∧
    ((0 : ℚ) ≤ 0 ∧ (0 : ℚ) ≤ 100) ∧
    (validateValue c5x (.str "")).isValid = false ∧
    (validateValue c5x (.str "")).errors = ["This field is required"] :=
  ⟨rfl, rfl, rfl, ⟨le_refl 0, by norm_num⟩, rfl, rfl⟩

/-- C5 (amended): for `number` entries with both bounds set,
`validateValue` accepts exactly the candidates whose numeric coercion is a
finite number within `[min, max]` (inclusive) and which do not trip the
required rule — `null` and `''` are rejected by the required rule whenever
`validation.required` is true (the schema default), even though they
coerce to 0; non-finite coercions (NaN, ±Infinity) are always rejected. -/
theorem C5_number_bounds_semantics :
    ∀ (c : Config) (v : JSValue) (mn mx : ℚ),
      c.type = .number → c.validation.min = some mn →
      c.validation.max = some mx →
      ((validateValue c v).isValid = true ↔
        ((∃ q, JSValue.toNumber v = .fin q ∧ mn ≤ q ∧ q ≤ mx) ∧
         ¬(c.validation.required = true ∧ (v = .null ∨ v = .str "")))) := by
  intro c v mn mx ht hmn hmx
  have hemp : isEmptyCandidate v = true ↔ (v = .null ∨ v = .str "") := by
    cases v <;> simp [isEmptyCandidate]
  rw [validateValue_isValid_eq]
  simp only [validateValue, ht, hmn, hmx]
  cases hn : JSValue.toNumber v with
  | nan => simp [List.isEmpty_iff]
  | posInf =>
    have h1 : JSNum.ltb .posInf (.fin mn) = false := rfl
    have h2 : JSNum.gtb .posInf (.fin mx) = true := rfl
    simp [h1, h2, List.isEmpty_iff]
  | negInf =>
    have h1 : JSNum.ltb .negInf (.fin mn) = true := rfl
    simp [h1, List.isEmpty_iff]
  | fin q =>
    have h1 : JSNum.ltb (.fin q) (.fin mn) = decide (q < mn) := rfl
    have h2 : JSNum.gtb (.fin q) (.fin mx) = decide (mx < q) := rfl
    by_cases hreq : c.validation.required = true
    · by_cases he : isEmptyCandidate v = true
      · simp [hreq, he, hemp.mp he, List.isEmpty_iff, hemp, h1, h2]
      · have he' : isEmptyCandidate v = false := by
          cases hb : isEmptyCandidate v
          · rfl
          · exact absurd hb he
        have hnd : ¬(v = JSValue.null ∨ v = JSValue.str "") := fun hv => by
          rw [hemp.mpr hv] at he'
          cases he'
        by_cases hlo : q < mn
        · simp [hreq, he', hlo, List.isEmpty_iff, not_lt, h1, h2]
        · by_cases hhi : mx < q
          · simp [hreq, he', hlo, hhi, List.isEmpty_iff, not_lt, h1, h2]
          · simp [hreq, he', hlo, hhi, List.isEmpty_iff, hemp, not_lt, h1, h2]
            exact ⟨⟨not_lt.mp hlo, not_lt.mp hhi⟩,
              fun h => hnd (Or.inl h), fun h => hnd (Or.inr h)⟩
    · have hreq' : c.validation.required = false := by
        cases hb : c.validation.required
        · rfl
        · exact absurd hb hreq
      by_cases hlo : q < mn
      · simp [hreq', hlo, List.isEmpty_iff, not_lt, h1, h2]
      · by_cases hhi : mx < q
        · simp [hreq', hlo, hhi, List.isEmpty_iff, not_lt, h1, h2]
        · simp [hreq', hlo, hhi, List.isEmpty_iff, h1, h2]
          exact ⟨not_lt.mp hlo, not_lt.mp hhi⟩
/-- Witness for C5: the concrete in-bounds boundary candidate 100 is
accepted on `c5w` and the out-of-bounds candidate 150 is rejected. -/
theorem C5_number_bounds_witness :
    (validateValue c5w (.num (.fin 100))).isValid = true ∧
    (validateValue c5w (.num (.fin 150))).isValid ≠ true :=
  ⟨(C5_number_bounds_semantics c5w (.num (.fin 100)) 0 100 rfl rfl rfl).mpr
    ⟨⟨100, rfl, by norm_num, le_refl 100⟩, fun h => by rcases h.2 with h2 | h2 <;> cases h2⟩,
   fun hval =>
    by
      obtain ⟨⟨q, hq, _, hle⟩, _⟩ :=
        (C5_number_bounds_semantics c5w (.num (.fin 150)) 0 100 rfl rfl rfl).mp hval
      cases hq
      norm_num at hle⟩

/-! C4. -/

/-- Counterexample to C4 as stated: `c4x` carries the unanchored pattern
`a`; the candidate `"ba"` is accepted by `validateValue` although the
entire string is not matched by the pattern — `RegExp.test` only searches
for a match somewhere inside the string. -/
theorem C4_substring_match_counterexample :
    c4x.type = .string ∧
    c4x.validation.pattern =
      some { anchorStart := false, anchorEnd := false, body := .chr 'a' } ∧
    (validateValue c4x (.str "ba")).isValid = true ∧
    specFullMatch { anchorStart := false, anchorEnd := false, body := .chr 'a' }
      "ba" = false :=
  ⟨rfl, rfl, rfl, rfl⟩

/-- C4 (amended): for `string` entries with a pattern set, `validateValue`
accepts exactly when the candidate does not trip the required rule, its
character count respects `min`/`max`, and `RegExp.test` finds a match —
search semantics honouring only the anchors written in the pattern, not an
implicit full match; a `min`/`max` character-count violation always
contributes its own separate error entry. -/
theorem C4_pattern_search_semantics :
    ∀ (c : Config) (v : JSValue) (p : JSPattern),
      c.type = .string → c.validation.pattern = some p →
      (((validateValue c v).isValid = true) ↔
        (¬(c.validation.required = true ∧ (v = .null ∨ v = .str "")) ∧
         (∀ m, c.validation.min = some m →
           ¬(((JSValue.toStr v).length : ℚ) < m)) ∧
         (∀ m, c.validation.max = some m →
           ¬(((JSValue.toStr v).length : ℚ) > m)) ∧
         jsTest p (JSValue.toStr v) = true)) ∧
      (∀ m, c.validation.min = some m → ((JSValue.toStr v).length : ℚ) < m →
        ("Value must be at least " ++ ratToString m ++ " characters") ∈
          (validateValue c v).errors) ∧
      (∀ m, c.validation.max = some m → ((JSValue.toStr v).length : ℚ) > m →
        ("Value must be at most " ++ ratToString m ++ " characters") ∈
          (validateValue c v).errors) := by
  intro c v p ht hp
  have hemp : isEmptyCandidate v = true ↔ (v = .null ∨ v = .str "") := by
    cases v <;> simp [isEmptyCandidate]
  refine ⟨?_, ?_, ?_⟩
  · rw [validateValue_isValid_eq]
    simp only [validateValue, ht, hp]
    cases hmn : c.validation.min with
    | none =>
      cases hmx : c.validation.max with
      | none =>
        simp [List.isEmpty_iff, hemp]
      | some mx =>
        simp [List.isEmpty_iff, hemp]
    | some mn =>
      cases hmx : c.validation.max with
      | none =>
        simp [List.isEmpty_iff, hemp]
      | some mx =>
        simp [List.isEmpty_iff, hemp]
  · intro m hm hlt
    simp [validateValue, ht, hp, hm, hlt]
  · intro m hm hgt
    simp [validateValue, ht, hp, hm, hgt]

/-- Witness for C4: on the seeded `theme_primary_color` entry (anchored
hex pattern), the candidate `#3B82F6` is accepted. -/
theorem C4_pattern_search_witness :
    (validateValue c4w (.str "#3B82F6")).isValid = true := by
  apply ((C4_pattern_search_semantics c4w (.str "#3B82F6") hexColorPat rfl rfl).1).mpr
  refine ⟨?_, ?_, ?_, ?_⟩
  · intro h
    rcases h.2 with h2 | h2
    · cases h2
    · injection h2 with hs
      exact absurd hs (by decide)
  · intro m hm
    cases hm
  · intro m hm
    cases hm
  · rfl

/-- `validateValue` only reads `type` and `validation`, so updating
`value` / `lastModifiedBy` / `version` does not change its verdict. -/
theorem validateValue_set_value (c : Config) (d x : JSValue) (u n : Nat) :
    validateValue { c with value := d, lastModifiedBy := u, version := n } x =
      validateValue c x := rfl

/-! C2. -/

/-- Counterexample to C2 as stated: the seeded `maintenance_mode` entry
has `defaultValue = false` — a configured default — yet reset answers 400
("no default value available"), because the route tests JS truthiness
(`!configuration.defaultValue`), not presence. -/
theorem C2_falsy_default_reset_counterexample :
    c2x.defaultValue = some (.bool false) ∧
    resetRoute [c2x] "maintenance_mode" 1 = (.noDefault, [c2x]) :=
  ⟨rfl, rfl⟩

/-- C2 (amended): for an existing entry, reset fails (400) when
`defaultValue` is absent **or falsy** (`false`, `0`, `''`, `null`); when
`defaultValue` is truthy and passes the entry's current validation (or
equals the stored value, in which case the save hook skips validation),
reset sets `value` to exactly `defaultValue`, stamps the modifier and
increments `version` by 1. -/
theorem C2_reset_default_semantics :
    ∀ (s : Store) (k : String) (u : Nat) (c : Config),
      lookup s k = some c →
      ((c.defaultValue = none → resetRoute s k u = (.noDefault, s)) ∧
       (∀ d, c.defaultValue = some d → JSValue.toBool d = false →
         resetRoute s k u = (.noDefault, s)) ∧
       (∀ d, c.defaultValue = some d → JSValue.toBool d = true →
         ((validateValue c d).isValid = true ∨ d = c.value) →
         resetRoute s k u =
           (.ok, replaceFirst s k
             { c with value := d, lastModifiedBy := u, version := c.version + 1 }))) := by
  intro s k u c hc
  refine ⟨?_, ?_, ?_⟩
  · intro hd
    simp [resetRoute, hc, hd]
  · intro d hd htb
    simp [resetRoute, hc, hd, htb]
  · intro d hd htb hok
    have hkey : c.key = k := lookup_key hc
    rcases hok with hvalid | heq
    · simp [resetRoute, hc, hd, htb, trySave, hkey]
      exact fun _ => hvalid
    · have hb : JSValue.beq d c.value = true := by
        rw [heq]
        exact JSValue.beq_refl c.value
      simp [resetRoute, hc, hd, htb, trySave, hb, hkey]

/-- Witness for C2: reset on the concrete default-less entry `c2wa` fails,
and reset on `c2wb` (default 10) rewrites `value` to 10 and bumps
`version`. -/
theorem C2_reset_default_witness :
    resetRoute [c2wa] "nodef" 9 = (.noDefault, [c2wa]) ∧
    resetRoute [c2wb] "assignment_late_penalty" 9 =
      (.ok,
        replaceFirst [c2wb] "assignment_late_penalty"
          { c2wb with
            value := .num (.fin 10), lastModifiedBy := 9,
            version := c2wb.version + 1 }) := by
  constructor
  · exact (C2_reset_default_semantics [c2wa] "nodef" 9 c2wa rfl).1 rfl
  · exact (C2_reset_default_semantics [c2wb] "assignment_late_penalty" 9 c2wb
      rfl).2.2 (.num (.fin 10)) rfl rfl (Or.inl rfl)

/-! C6. -/

/-- Counterexample to C6 as stated: on `c6x`, whose `defaultValue = 150`
violates its own current `[0, 100]` rules, reset does **not** persist the
default — the pre-save hook re-validates the modified value, `save()`
rejects it, and the request fails with a 500 leaving the entry
unchanged. -/
theorem C6_presave_blocks_invalid_default_counterexample :
    c6x.defaultValue = some (.num (.fin 150)) ∧
    (validateValue c6x (.num (.fin 150))).isValid = false ∧
    resetRoute [c6x] "pen6" 1 = (.serverError, [c6x]) :=
  ⟨rfl, rfl, rfl⟩

/-- C6 (amended): the reset route itself performs no validation, but the
model's pre-save hook re-validates whenever the default differs from the
stored value, so a `defaultValue` that violates the entry's current rules
is not persisted: the request fails with a server error and the store is
unchanged.  (Only a default deep-equal to the stored value bypasses the
hook, trivially persisting nothing new.) -/
theorem C6_reset_invalid_default_rejected :
    ∀ (s : Store) (k : String) (u : Nat) (c : Config) (d : JSValue),
      lookup s k = some c → c.defaultValue = some d →
      JSValue.toBool d = true → d ≠ c.value →
      (validateValue c d).isValid = false →
      resetRoute s k u = (.serverError, s) := by
  intro s k u c d hc hd htb hne hval
  have hb := JSValue.beq_eq_false_of_ne hne
  simp [resetRoute, hc, hd, htb, trySave, hb]
  exact hval

/-- Witness for C6: the concrete entry `c6w` (default 5000, rules
`[1, 1000]`) answers 500 on reset and keeps its stored value. -/
theorem C6_reset_invalid_default_witness :
    resetRoute [c6w] "cap6" 2 = (.serverError, [c6w]) :=
  C6_reset_invalid_default_rejected [c6w] "cap6" 2 c6w (.num (.fin 5000)) rfl rfl
    rfl
    (by
      intro h
      injection h with h2
      injection h2 with h3
      exact absurd h3 (by norm_num))
    rfl

/-! C1. -/

/-- Counterexample to C1 as stated: `c1x` is a non-editable entry, yet the
reset operation — which never checks `isEditable` — succeeds and
overwrites its value (and bumps `version`), so "each mutating API
operation fails and leaves the entry unchanged" is false for reset. -/
theorem C1_reset_mutates_noneditable_counterexample :
    c1x.isEditable = false ∧
    resetRoute [c1x] "k" 7 =
      (.ok, [{ c1x with value := .str "d", lastModifiedBy := 7, version := 2 }]) ∧
    c1x.value ≠ .str "d" := by
  refine ⟨rfl, rfl, ?_⟩
  intro h
  injection h with hs
  exact absurd hs (by decide)

/-- C1 (amended): on an entry with `isEditable = false`, update-by-key,
delete-by-key and bulk-update items always fail and leave the store
unchanged; reset is excluded — it skips the `isEditable` check and can
mutate such an entry whenever its default is truthy (see the
counterexample). -/
theorem C1_noneditable_blocks_update_delete_bulk :
    ∀ (s : Store) (k : String) (c : Config),
      lookup s k = some c → c.isEditable = false →
      ((∀ (r : UpdateReq) (u : Nat),
         (updateRoute s k r u).2 = s ∧ (updateRoute s k r u).1 ≠ .ok) ∧
       ((deleteRoute s k).2 = s ∧ (deleteRoute s k).1 ≠ .ok) ∧
       (∀ (v : JSValue) (u : Nat),
         (bulkRoute s [(k, v)] u).2 = s ∧
         ∀ res errs, (bulkRoute s [(k, v)] u).1 = .okBulk res errs →
           res = [])) := by
  intro s k c hc he
  refine ⟨?_, ?_, ?_⟩
  · intro r u
    by_cases hg : updateGate r = []
    · have hres : updateRoute s k r u = (.notEditable, s) := by
        simp [updateRoute, hg, hc, he]
      rw [hres]
      exact ⟨rfl, by simp⟩
    · have hres : updateRoute s k r u = (.gateErr (updateGate r), s) := by
        simp [updateRoute, hg]
      rw [hres]
      exact ⟨rfl, by simp⟩
  · have hres : deleteRoute s k = (.notEditable, s) := by
      simp [deleteRoute, hc, he]
    rw [hres]
    exact ⟨rfl, by simp⟩
  · intro v u
    by_cases hg : bulkGateMsgs [(k, v)] = []
    · have hres : bulkRoute s [(k, v)] u =
          (.okBulk [] [(k, "Configuration is not editable")], s) := by
        simp [bulkRoute, hg, bulkGo, hc, he]
      rw [hres]
      refine ⟨rfl, fun res errs h => ?_⟩
      injection h with h1 h2
      exact h1.symm
    · have hres : bulkRoute s [(k, v)] u = (.gateErr (bulkGateMsgs [(k, v)]), s) := by
        simp [bulkRoute, hg]
      rw [hres]
      exact ⟨rfl, fun res errs h => by cases h⟩

/-- Witness for C1: on the concrete non-editable entry `c1w`, a concrete
update, the delete, and a concrete single-item bulk update all fail and
leave the store unchanged. -/
theorem C1_noneditable_witness :
    ((updateRoute [c1w] "locked_key" { value := some (.num (.fin 1)) } 4).2 =
        [c1w] ∧
     (updateRoute [c1w] "locked_key" { value := some (.num (.fin 1)) } 4).1 ≠
        .ok) ∧
    ((deleteRoute [c1w] "locked_key").2 = [c1w] ∧
     (deleteRoute [c1w] "locked_key").1 ≠ .ok) ∧
    ((bulkRoute [c1w] [("locked_key", .num (.fin 1))] 4).2 = [c1w] ∧
     ∀ res errs,
       (bulkRoute [c1w] [("locked_key", .num (.fin 1))] 4).1 =
         .okBulk res errs → res = []) := by
  obtain ⟨h1, h2, h3⟩ :=
    C1_noneditable_blocks_update_delete_bulk [c1w] "locked_key" c1w rfl rfl
  exact ⟨h1 { value := some (.num (.fin 1)) } 4, h2,
    h3 (.num (.fin 1)) 4⟩

/-! C8. -/

/-- C8: when the supplied candidate value fails `validateValue` on an
existing editable entry, the update responds with an error carrying a
non-empty list of violated-rule messages and leaves the store — hence the
entry's `value`, `version`, `lastModifiedBy`, `description`, `isPublic`
and `tags` — completely unchanged; whenever the request also passes the
body-level non-empty gate, that list is exactly `validateValue`'s error
list. -/
theorem C8_update_validation_atomic :
    ∀ (s : Store) (key : String) (r : UpdateReq) (u : Nat) (c : Config)
      (v : JSValue),
      lookup s key = some c → c.isEditable = true → r.value = some v →
      (validateValue c v).isValid = false →
      ((updateRoute s key r u).2 = s ∧
       (∃ msgs, msgs ≠ [] ∧
         ((updateRoute s key r u).1 = .gateErr msgs ∨
          (updateRoute s key r u).1 = .invalid msgs)) ∧
       (gateEmpty v = false → r.description ≠ some "" →
         (updateRoute s key r u).1 = .invalid (validateValue c v).errors)) := by
  intro s key r u c v hc he hv hval
  by_cases hg : updateGate r = []
  · have hres : updateRoute s key r u = (.invalid (validateValue c v).errors, s) := by
      simp [updateRoute, hg, hc, he, hv, hval]
    rw [hres]
    exact ⟨rfl,
      ⟨(validateValue c v).errors, validateValue_errors_ne_nil hval, Or.inr rfl⟩,
      fun _ _ => rfl⟩
  · have hres : updateRoute s key r u = (.gateErr (updateGate r), s) := by
      simp [updateRoute, hg]
    rw [hres]
    refine ⟨rfl, ⟨updateGate r, hg, Or.inl rfl⟩, fun hge hd => ?_⟩
    exfalso
    apply hg
    rw [updateGate, hv]
    cases hdesc : r.description with
    | none => simp [hge]
    | some d =>
      have : ¬ d = "" := fun hde => hd (by rw [hdesc, hde])
      simp [hge, this]

/-- Witness for C8: on the concrete entry `c8w` (bounds `[0, 100]`, value
15), the candidate 150 is rejected with the "at most 100" message and the
store is unchanged. -/
theorem C8_update_validation_witness :
    (updateRoute [c8w] "late_pen" { value := some (.num (.fin 150)) } 3).2 =
      [c8w] ∧
    (∃ msgs, msgs ≠ [] ∧
      ((updateRoute [c8w] "late_pen" { value := some (.num (.fin 150)) } 3).1 =
        .gateErr msgs ∨
       (updateRoute [c8w] "late_pen" { value := some (.num (.fin 150)) } 3).1 =
        .invalid msgs)) ∧
    (gateEmpty (.num (.fin 150)) = false →
      ({ value := some (.num (.fin 150)) } : UpdateReq).description ≠ some "" →
      (updateRoute [c8w] "late_pen" { value := some (.num (.fin 150)) } 3).1 =
        .invalid (validateValue c8w (.num (.fin 150))).errors) :=
  C8_update_validation_atomic [c8w] "late_pen"
    { value := some (.num (.fin 150)) } 3 c8w (.num (.fin 150)) rfl rfl rfl rfl

/-! C3. -/

/-- A successful `PUT /:key` found the entry and saved
`applyUpdateFields` over it. -/
theorem updateRoute_ok_shape {s : Store} {k : String} {r : UpdateReq} {u : Nat}
    {st : Store} (h : updateRoute s k r u = (.ok, st)) :
    ∃ c, lookup s k = some c ∧ st = replaceFirst s k (applyUpdateFields c r u) := by
  by_cases hg : updateGate r = []
  · cases hlk : lookup s k with
    | none =>
      have hr : updateRoute s k r u = (.notFound, s) := by
        simp [updateRoute, hg, hlk]
      rw [hr] at h
      exact absurd h (by simp)
    | some c =>
      by_cases he : c.isEditable = false
      · have hr : updateRoute s k r u = (.notEditable, s) := by
          simp [updateRoute, hg, hlk, he]
        rw [hr] at h
        exact absurd h (by simp)
      · cases hrv : r.value with
        | some v =>
          by_cases hval : (validateValue c v).isValid = false
          · have hr : updateRoute s k r u =
                (.invalid (validateValue c v).errors, s) := by
              simp [updateRoute, hg, hlk, he, hrv, hval]
            rw [hr] at h
            exact absurd h (by simp)
          · have hr : updateRoute s k r u =
                trySave s c (applyUpdateFields c r u) := by
              simp [updateRoute, hg, hlk, he, hrv, hval]
            rw [hr] at h
            unfold trySave at h
            split at h
            · exact absurd h (by simp)
            · injection h with h1 h2
              exact ⟨c, rfl, by rw [← h2, lookup_key hlk]⟩
        | none =>
          have hr : updateRoute s k r u =
              trySave s c (applyUpdateFields c r u) := by
            simp [updateRoute, hg, hlk, he, hrv]
          rw [hr] at h
          unfold trySave at h
          split at h
          · exact absurd h (by simp)
          · injection h with h1 h2
            exact ⟨c, rfl, by rw [← h2, lookup_key hlk]⟩
  · have hr : updateRoute s k r u = (.gateErr (updateGate r), s) := by
      simp [updateRoute, hg]
    rw [hr] at h
    exact absurd h (by simp)

/-- A successful reset found the entry and saved the default over it. -/
theorem resetRoute_ok_shape {s : Store} {k : String} {u : Nat} {st : Store}
    (h : resetRoute s k u = (.ok, st)) :
    ∃ c d, lookup s k = some c ∧ c.defaultValue = some d ∧
      st = replaceFirst s k
        { c with value := d, lastModifiedBy := u, version := c.version + 1 } := by
  cases hlk : lookup s k with
  | none =>
    have hr : resetRoute s k u = (.notFound, s) := by simp [resetRoute, hlk]
    rw [hr] at h
    exact absurd h (by simp)
  | some c =>
    cases hd : c.defaultValue with
    | none =>
      have hr : resetRoute s k u = (.noDefault, s) := by simp [resetRoute, hlk, hd]
      rw [hr] at h
      exact absurd h (by simp)
    | some d =>
      by_cases htb : JSValue.toBool d = false
      · have hr : resetRoute s k u = (.noDefault, s) := by
          simp [resetRoute, hlk, hd, htb]
        rw [hr] at h
        exact absurd h (by simp)
      · have hr : resetRoute s k u =
            trySave s c
              { c with value := d, lastModifiedBy := u, version := c.version + 1 } := by
          simp [resetRoute, hlk, hd, htb]
        rw [hr] at h
        unfold trySave at h
        split at h
        · exact absurd h (by simp)
        · injection h with h1 h2
          exact ⟨c, d, rfl, hd, by rw [← h2, lookup_key hlk]⟩

/-- A single-item bulk update whose item landed in `results` found the
entry and saved the new value over it. -/
theorem bulk_single_ok_shape {s : Store} {k : String} {v : JSValue} {u : Nat}
    {res : List String} {errs : List (String × String)} {st : Store}
    (h : bulkRoute s [(k, v)] u = (.okBulk res errs, st)) (hres : res ≠ []) :
    ∃ c, lookup s k = some c ∧
      st = replaceFirst s k
        { c with value := v, lastModifiedBy := u, version := c.version + 1 } := by
  by_cases hg : bulkGateMsgs [(k, v)] = []
  · cases hlk : lookup s k with
    | none =>
      have hr : bulkRoute s [(k, v)] u =
          (.okBulk [] [(k, "Configuration not found")], s) := by
        simp [bulkRoute, hg, bulkGo, hlk]
      rw [hr] at h
      injection h with h1 h2
      injection h1 with hrr hee
      exact absurd hrr.symm hres
    | some c =>
      by_cases he : c.isEditable = false
      · have hr : bulkRoute s [(k, v)] u =
            (.okBulk [] [(k, "Configuration is not editable")], s) := by
          simp [bulkRoute, hg, bulkGo, hlk, he]
        rw [hr] at h
        injection h with h1 h2
        injection h1 with hrr hee
        exact absurd hrr.symm hres
      · by_cases hval : (validateValue c v).isValid = false
        · have hr : bulkRoute s [(k, v)] u =
              (.okBulk []
                [(k, "Validation failed: " ++
                  String.intercalate ", " (validateValue c v).errors)], s) := by
            simp [bulkRoute, hg, bulkGo, hlk, he, hval]
          rw [hr] at h
          injection h with h1 h2
          injection h1 with hrr hee
          exact absurd hrr.symm hres
        · have hval2 : (validateValue c v).isValid = true := by
            cases hb : (validateValue c v).isValid
            · exact absurd hb hval
            · rfl
          have he2 : c.isEditable = true := by
            cases hb : c.isEditable
            · exact absurd hb he
            · rfl
          have hr : bulkRoute s [(k, v)] u =
              (.okBulk [k] [], replaceFirst s c.key
                { c with value := v, lastModifiedBy := u, version := c.version + 1 }) := by
            have hts : trySave s c
                { c with value := v, lastModifiedBy := u, version := c.version + 1 } =
                (.ok, replaceFirst s c.key
                  { c with value := v, lastModifiedBy := u, version := c.version + 1 }) := by
              unfold trySave
              rw [if_neg]
              intro hcontra
              exact hval hcontra.2
            simp only [bulkRoute, bulkGo, hlk, hg]
            simp only [if_neg he, if_neg hval]
            simp only [hts]
            simp
          rw [hr] at h
          injection h with h1 h2
          exact ⟨c, rfl, by rw [← h2, lookup_key hlk]⟩
  · have hr : bulkRoute s [(k, v)] u =
        (.gateErr (bulkGateMsgs [(k, v)]), s) := by
      simp [bulkRoute, hg]
    rw [hr] at h
    exact absurd h (by simp)

/-- Each successful mutation (update, bulk item, reset) on key `k` leaves
an entry at `k` whose `version` is exactly one more. -/
theorem applyMut_version {k : String} {u : Nat} {s s2 : Store} {c : Config}
    {m : Mut} (hm : applyMut k u s m = some s2) (hc : lookup s k = some c) :
    ∃ c2, lookup s2 k = some c2 ∧ c2.version = c.version + 1 := by
  have hkey : c.key = k := lookup_key hc
  cases m with
  | upd r =>
    simp only [applyMut] at hm
    rcases hres : updateRoute s k r u with ⟨resp, st⟩
    rw [hres] at hm
    cases resp <;> simp at hm
    subst hm
    obtain ⟨c0, hc0, hst⟩ := updateRoute_ok_shape hres
    rw [hc0] at hc
    injection hc with hcc
    subst hcc
    subst hst
    exact ⟨applyUpdateFields c0 r u, lookup_replaceFirst_self hc0 hkey, rfl⟩
  | blk v =>
    simp only [applyMut] at hm
    rcases hres : bulkRoute s [(k, v)] u with ⟨resp, st⟩
    rw [hres] at hm
    cases resp with
    | okBulk results errors =>
      cases results with
      | nil => simp at hm
      | cons a as =>
        cases errors with
        | nil =>
          simp at hm
          subst hm
          obtain ⟨c0, hc0, hst⟩ := bulk_single_ok_shape hres (by simp)
          rw [hc0] at hc
          injection hc with hcc
          subst hcc
          subst hst
          refine ⟨{ c0 with value := v, lastModifiedBy := u, version := c0.version + 1 }, ?_, rfl⟩
          exact lookup_replaceFirst_self hc0 hkey
        | cons b bs => simp at hm
    | ok => simp at hm
    | gateErr msgs => simp at hm
    | notFound => simp at hm
    | notEditable => simp at hm
    | noDefault => simp at hm
    | invalid errs => simp at hm
    | dup => simp at hm
    | serverError => simp at hm
  | rst =>
    simp only [applyMut] at hm
    rcases hres : resetRoute s k u with ⟨resp, st⟩
    rw [hres] at hm
    cases resp <;> simp at hm
    subst hm
    obtain ⟨c0, d, hc0, hd, hst⟩ := resetRoute_ok_shape hres
    rw [hc0] at hc
    injection hc with hcc
    subst hcc
    subst hst
    refine ⟨{ c0 with value := d, lastModifiedBy := u, version := c0.version + 1 }, ?_, rfl⟩
    exact lookup_replaceFirst_self hc0 hkey

/-- A chain of `n` successful mutations adds exactly `n` to `version`. -/
theorem applyMuts_version {k : String} {u : Nat} :
    ∀ (ms : List Mut) (s s2 : Store) (c : Config),
      applyMuts k u s ms = some s2 → lookup s k = some c →
      ∃ c2, lookup s2 k = some c2 ∧ c2.version = c.version + ms.length := by
  intro ms
  induction ms with
  | nil =>
    intro s s2 c hm hc
    simp only [applyMuts] at hm
    injection hm with hss
    subst hss
    exact ⟨c, hc, by simp⟩
  | cons m ms ih =>
    intro s s2 c hm hc
    simp only [applyMuts] at hm
    rcases ha : applyMut k u s m with _ | s1
    · rw [ha] at hm
      cases hm
    · rw [ha] at hm
      obtain ⟨c1, hc1, hv1⟩ := applyMut_version ha hc
      obtain ⟨c2, hc2, hv2⟩ := ih s1 s2 c1 hm hc1
      refine ⟨c2, hc2, ?_⟩
      rw [hv2, hv1]
      simp
      omega

/-- A successful create appends a fresh entry with `version = 1`. -/
theorem createRoute_ok_shape {s : Store} {r : CreateReq} {u : Nat} {st : Store}
    (h : createRoute s r u = (.ok, st)) :
    ∃ c, lookup st r.key = some c ∧ c.version = 1 := by
  by_cases hg : createGate r = true
  · have hr : createRoute s r u = (.gateErr ["create body invalid"], s) := by
      simp [createRoute, hg]
    rw [hr] at h
    exact absurd h (by simp)
  · cases hlk : lookup s r.key with
    | some c0 =>
      have hr : createRoute s r u = (.dup, s) := by
        simp [createRoute, hg, hlk]
      rw [hr] at h
      exact absurd h (by simp)
    | none =>
      by_cases hval :
          (validateValue (createdConfig r u) (createdConfig r u).value).isValid
            = false
      · have hr : createRoute s r u = (.serverError, s) := by
          simp [createRoute, hg, hlk, hval]
        rw [hr] at h
        exact absurd h (by simp)
      · have hr : createRoute s r u = (.ok, s ++ [createdConfig r u]) := by
          simp [createRoute, hg, hlk, hval]
        rw [hr] at h
        injection h with h1 h2
        refine ⟨createdConfig r u, ?_, rfl⟩
        rw [← h2, lookup_append_of_none hlk]
        simp [createdConfig]

/-! The C3 claim theorem. -/

/-- C3: `version` is 1 immediately after a successful create, and every
successful mutation — update by key, single bulk-update item, reset —
increments it by exactly 1, so after `N` successful sequential mutations
an entry created at version 1 reads `1 + N`. -/
theorem C3_version_counter :
    (∀ (s : Store) (r : CreateReq) (u : Nat) (st : Store),
      createRoute s r u = (.ok, st) →
      ∃ c, lookup st r.key = some c ∧ c.version = 1) ∧
    (∀ (k : String) (u : Nat) (ms : List Mut) (s s2 : Store) (c : Config),
      lookup s k = some c → applyMuts k u s ms = some s2 →
      ∃ c2, lookup s2 k = some c2 ∧ c2.version = c.version + ms.length) :=
  ⟨fun s r u st h => createRoute_ok_shape h,
   fun k u ms s s2 c hc hm => applyMuts_version ms s s2 c hm hc⟩

/-- Witness for C3: creating a fresh entry on the empty store yields
version 1, and on the concrete entry `c3w` (version 1) the successful
three-step chain update → bulk item → reset ends at version `1 + 3`. -/
theorem C3_version_counter_witness :
    (∃ c, lookup ((createRoute []
        { key := "flag2", value := .bool true, type := .boolean,
          category := "system", description := "x" } 1).2) "flag2" =
      some c ∧ c.version = 1) ∧
    (∃ c2, lookup
        [{ c3w with value := .bool true, lastModifiedBy := 5, version := 4 }]
        "flag" = some c2 ∧
      c2.version = c3w.version + 3) := by
  constructor
  · exact C3_version_counter.1 []
      { key := "flag2", value := .bool true, type := .boolean,
        category := "system", description := "x" } 1 _ rfl
  · exact C3_version_counter.2 "flag" 5
      [.upd { value := some (.bool false) }, .blk (.bool true), .rst]
      [c3w]
      [{ c3w with value := .bool true, lastModifiedBy := 5, version := 4 }]
      c3w rfl rfl

/-! C9. -/

/-- Counterexample to C9 as stated: in the batch
`[(a, false), (b, "")]` over a store where `a` exists, is editable and
`false` is a valid value for it, the second item's empty-string value
trips the request-level express-validator gate: the whole request is
rejected with a 400 and the first item is **not** applied — items are not
processed independently. -/
theorem C9_gate_rejects_batch_counterexample :
    (validateValue c9x (.bool false)).isValid = true ∧
    c9x.isEditable = true ∧
    bulkRoute [c9x] [("a", .bool false), ("b", .str "")] 3 =
      (.gateErr ["Value is required for each configuration"], [c9x]) :=
  ⟨rfl, rfl, rfl⟩

/-- `LookupShapeEq` is reflexive. -/
theorem LookupShapeEq.refl (s : Store) : LookupShapeEq s s := by
  refine ⟨fun k => Iff.rfl, fun k c0 c h1 h2 => ?_⟩
  rw [h1] at h2
  injection h2 with h
  subst h
  exact ⟨rfl, rfl, rfl, rfl⟩

/-- `validateValue` reads only `type` and `validation`. -/
theorem validateValue_congr {a b : Config} (ht : a.type = b.type)
    (hv : a.validation = b.validation) (x : JSValue) :
    validateValue a x = validateValue b x := by
  unfold validateValue
  rw [ht, hv]

/-- One value-write of the bulk loop keeps the evolving store
shape-equal to the starting store. -/
theorem LookupShapeEq.step {s0 s : Store} {c c1 : Config}
    (h : LookupShapeEq s0 s) (hc : lookup s c.key = some c)
    (hkey : c1.key = c.key) (hty : c1.type = c.type)
    (hvl : c1.validation = c.validation) (hed : c1.isEditable = c.isEditable) :
    LookupShapeEq s0 (replaceFirst s c.key c1) := by
  have hrepl : lookup (replaceFirst s c.key c1) c.key = some c1 :=
    lookup_replaceFirst_self hc hkey
  constructor
  · intro k
    by_cases hk : k = c.key
    · subst hk
      rw [hrepl]
      constructor
      · intro h0
        rw [(h.1 c.key).mp h0] at hc
        cases hc
      · intro hcc
        cases hcc
    · rw [lookup_replaceFirst_ne hk hkey]
      exact h.1 k
  · intro k c0 cc h0 hcc
    by_cases hk : k = c.key
    · subst hk
      rw [hrepl] at hcc
      injection hcc with hcc1
      subst hcc1
      obtain ⟨e1, e2, e3, e4⟩ := h.2 c.key c0 c h0 hc
      exact ⟨e1.trans hkey.symm, e2.trans hty.symm, e3.trans hvl.symm,
        e4.trans hed.symm⟩
    · rw [lookup_replaceFirst_ne hk hkey] at hcc
      exact h.2 k c0 cc h0 hcc

/-- An item's classification is invariant under shape-equality: the bulk
loop's value writes never change whether a later item applies. -/
theorem itemApplies_eq_of_shape {s0 s : Store} (h : LookupShapeEq s0 s)
    (it : String × JSValue) : itemApplies s it = itemApplies s0 it := by
  cases h0 : lookup s0 it.1 with
  | none =>
    have hs : lookup s it.1 = none := (h.1 it.1).mp h0
    simp [itemApplies, h0, hs]
  | some c0 =>
    cases hs : lookup s it.1 with
    | none =>
      rw [(h.1 it.1).mpr hs] at h0
      cases h0
    | some c =>
      obtain ⟨e1, e2, e3, e4⟩ := h.2 it.1 c0 c h0 hs
      simp only [itemApplies, h0, hs]
      rw [e4, validateValue_congr e2.symm e3.symm]

/-- An item's recorded error entry is likewise invariant. -/
theorem itemError_eq_of_shape {s0 s : Store} (h : LookupShapeEq s0 s)
    (it : String × JSValue) : itemError s it = itemError s0 it := by
  cases h0 : lookup s0 it.1 with
  | none =>
    have hs : lookup s it.1 = none := (h.1 it.1).mp h0
    simp [itemError, h0, hs]
  | some c0 =>
    cases hs : lookup s it.1 with
    | none =>
      rw [(h.1 it.1).mpr hs] at h0
      cases h0
    | some c =>
      obtain ⟨e1, e2, e3, e4⟩ := h.2 it.1 c0 c h0 hs
      simp only [itemError, h0, hs]
      rw [e4, validateValue_congr e2.symm e3.symm]

/-- An item applies exactly when it records no error. -/
theorem itemApplies_iff_itemError_none (s : Store) (it : String × JSValue) :
    itemApplies s it = true ↔ itemError s it = none := by
  cases hs : lookup s it.1 with
  | none => simp [itemApplies, itemError, hs]
  | some c =>
    by_cases he : c.isEditable = false
    · simp [itemApplies, itemError, hs, he]
    · by_cases hv : (validateValue c it.2).isValid = false
      · simp [itemApplies, itemError, hs, he, hv]
      · have he2 : c.isEditable = true := by
          cases hb : c.isEditable
          · exact absurd hb he
          · rfl
        have hv2 : (validateValue c it.2).isValid = true := by
          cases hb : (validateValue c it.2).isValid
          · exact absurd hb hv
          · rfl
        simp [itemApplies, itemError, hs, he2, hv2]

/-- Counting: one `results` or `errors` entry per input item. -/
theorem filter_filterMap_length {α β : Type} (p : α → Bool)
    (f : α → Option β) (h : ∀ x, p x = true ↔ f x = none) :
    ∀ l : List α, (l.filter p).length + (l.filterMap f).length = l.length := by
  intro l
  induction l with
  | nil => rfl
  | cons x xs ih =>
    cases hp : p x with
    | true =>
      have hf : f x = none := (h x).mp hp
      simp [List.filter_cons, List.filterMap_cons, hp, hf]
      omega
    | false =>
      cases hf : f x with
      | none => exact absurd ((h x).mpr hf) (by rw [hp]; simp)
      | some y =>
        simp [List.filter_cons, List.filterMap_cons, hp, hf]
        omega

/-- Evaluating the key predicate on a concrete head item. -/
theorem keyAppliesPred_eval (s0 : Store) (k k0 : String) (v0 : JSValue) :
    keyAppliesPred s0 k (k0, v0) = (decide (k0 = k) && itemApplies s0 (k0, v0)) :=
  rfl

/-- The bulk-update loop, for arbitrary batches (duplicate keys allowed):
`results` and `errors` are exactly the classification of each item
against the starting shape (one entry per item, in order), keys absent at
the start stay absent, and each present key ends with the last applied
value and `version` increased by exactly the number of applied items
aimed at it. -/
theorem bulkGo_full (u : Nat) :
    ∀ (items : List (String × JSValue)) (s0 s : Store),
      LookupShapeEq s0 s →
      (bulkGo u s items).1 =
        (items.filter (fun it => itemApplies s0 it)).map Prod.fst ∧
      (bulkGo u s items).2.1 = items.filterMap (fun it => itemError s0 it) ∧
      (∀ k, lookup s k = none → lookup (bulkGo u s items).2.2 k = none) ∧
      (∀ k c, lookup s k = some c →
        (items.filter (keyAppliesPred s0 k) = [] →
          lookup (bulkGo u s items).2.2 k = some c) ∧
        (∀ itl, (items.filter (keyAppliesPred s0 k)).getLast? = some itl →
          lookup (bulkGo u s items).2.2 k =
            some { c with value := itl.2, lastModifiedBy := u, version := c.version + (items.filter (keyAppliesPred s0 k)).length })) := by
  intro items
  induction items with
  | nil =>
    intro s0 s hsh
    refine ⟨rfl, rfl, fun k h => h, fun k c hc => ⟨fun _ => hc, fun itl h => ?_⟩⟩
    cases h
  | cons it0 rest ih =>
    obtain ⟨k0, v0⟩ := it0
    intro s0 s hsh
    cases hlk : lookup s k0 with
    | none =>
      have ha0 : itemApplies s0 (k0, v0) = false := by
        rw [← itemApplies_eq_of_shape hsh]
        simp [itemApplies, hlk]
      have he0 : itemError s0 (k0, v0) = some (k0, "Configuration not found") := by
        rw [← itemError_eq_of_shape hsh]
        simp [itemError, hlk]
      rcases hgo : bulkGo u s rest with ⟨rs, es, s2⟩
      have hcons : bulkGo u s ((k0, v0) :: rest) =
          (rs, (k0, "Configuration not found") :: es, s2) := by
        simp only [bulkGo, hlk, hgo]
      obtain ⟨ihres, iherr, ihnone, ihsome⟩ := ih s0 s hsh
      rw [hgo] at ihres iherr ihnone ihsome
      simp only at ihres iherr ihnone ihsome
      refine ⟨?_, ?_, ?_, ?_⟩
      · rw [hcons]
        show rs = _
        rw [List.filter_cons]
        simp [ha0, ihres]
      · rw [hcons]
        show (k0, "Configuration not found") :: es = _
        rw [List.filterMap_cons, he0, iherr]
      · intro k hk
        rw [hcons]
        show lookup s2 k = none
        exact ihnone k hk
      · intro k c hc
        have hhead : keyAppliesPred s0 k (k0, v0) = false := by
          rw [keyAppliesPred_eval, ha0, Bool.and_false]
        constructor
        · intro hF
          rw [hcons]
          show lookup s2 k = some c
          rw [List.filter_cons, hhead] at hF
          simp only [Bool.false_eq_true, if_false] at hF
          exact (ihsome k c hc).1 hF
        · intro itl hl
          rw [hcons]
          show lookup s2 k = some _
          rw [List.filter_cons, hhead] at hl ⊢
          simp only [Bool.false_eq_true, if_false] at hl ⊢
          exact (ihsome k c hc).2 itl hl
    | some c =>
      have hkey0 : c.key = k0 := lookup_key hlk
      by_cases he : c.isEditable = false
      · have ha0 : itemApplies s0 (k0, v0) = false := by
          rw [← itemApplies_eq_of_shape hsh]
          simp [itemApplies, hlk, he]
        have he0 : itemError s0 (k0, v0) =
            some (k0, "Configuration is not editable") := by
          rw [← itemError_eq_of_shape hsh]
          simp [itemError, hlk, he]
        rcases hgo : bulkGo u s rest with ⟨rs, es, s2⟩
        have hcons : bulkGo u s ((k0, v0) :: rest) =
            (rs, (k0, "Configuration is not editable") :: es, s2) := by
          simp only [bulkGo, hlk]
          simp only [if_pos he]
          simp only [hgo]
        obtain ⟨ihres, iherr, ihnone, ihsome⟩ := ih s0 s hsh
        rw [hgo] at ihres iherr ihnone ihsome
        simp only at ihres iherr ihnone ihsome
        refine ⟨?_, ?_, ?_, ?_⟩
        · rw [hcons]
          show rs = _
          rw [List.filter_cons]
          simp [ha0, ihres]
        · rw [hcons]
          show (k0, "Configuration is not editable") :: es = _
          rw [List.filterMap_cons, he0, iherr]
        · intro k hk
          rw [hcons]
          show lookup s2 k = none
          exact ihnone k hk
        · intro k c2 hc2
          have hhead : keyAppliesPred s0 k (k0, v0) = false := by
            rw [keyAppliesPred_eval, ha0, Bool.and_false]
          constructor
          · intro hF
            rw [hcons]
            show lookup s2 k = some c2
            rw [List.filter_cons, hhead] at hF
            simp only [Bool.false_eq_true, if_false] at hF
            exact (ihsome k c2 hc2).1 hF
          · intro itl hl
            rw [hcons]
            show lookup s2 k = some _
            rw [List.filter_cons, hhead] at hl ⊢
            simp only [Bool.false_eq_true, if_false] at hl ⊢
            exact (ihsome k c2 hc2).2 itl hl
      · by_cases hval : (validateValue c v0).isValid = false
        · have ha0 : itemApplies s0 (k0, v0) = false := by
            rw [← itemApplies_eq_of_shape hsh]
            simp [itemApplies, hlk, hval]
          have he0 : itemError s0 (k0, v0) =
              some (k0, "Validation failed: " ++
                String.intercalate ", " (validateValue c v0).errors) := by
            rw [← itemError_eq_of_shape hsh]
            simp [itemError, hlk, he, hval]
          rcases hgo : bulkGo u s rest with ⟨rs, es, s2⟩
          have hcons : bulkGo u s ((k0, v0) :: rest) =
              (rs, (k0, "Validation failed: " ++
                String.intercalate ", " (validateValue c v0).errors) :: es,
                s2) := by
            simp only [bulkGo, hlk]
            simp only [if_neg he, if_pos hval]
            simp only [hgo]
          obtain ⟨ihres, iherr, ihnone, ihsome⟩ := ih s0 s hsh
          rw [hgo] at ihres iherr ihnone ihsome
          simp only at ihres iherr ihnone ihsome
          refine ⟨?_, ?_, ?_, ?_⟩
          · rw [hcons]
            show rs = _
            rw [List.filter_cons]
            simp [ha0, ihres]
          · rw [hcons]
            show (k0, "Validation failed: " ++
              String.intercalate ", " (validateValue c v0).errors) :: es = _
            rw [List.filterMap_cons, he0, iherr]
          · intro k hk
            rw [hcons]
            show lookup s2 k = none
            exact ihnone k hk
          · intro k c2 hc2
            have hhead : keyAppliesPred s0 k (k0, v0) = false := by
              rw [keyAppliesPred_eval, ha0, Bool.and_false]
            constructor
            · intro hF
              rw [hcons]
              show lookup s2 k = some c2
              rw [List.filter_cons, hhead] at hF
              simp only [Bool.false_eq_true, if_false] at hF
              exact (ihsome k c2 hc2).1 hF
            · intro itl hl
              rw [hcons]
              show lookup s2 k = some _
              rw [List.filter_cons, hhead] at hl ⊢
              simp only [Bool.false_eq_true, if_false] at hl ⊢
              exact (ihsome k c2 hc2).2 itl hl
        · have hval2 : (validateValue c v0).isValid = true := by
            cases hb : (validateValue c v0).isValid
            · exact absurd hb hval
            · rfl
          have he2 : c.isEditable = true := by
            cases hb : c.isEditable
            · exact absurd hb he
            · rfl
          have ha0 : itemApplies s0 (k0, v0) = true := by
            rw [← itemApplies_eq_of_shape hsh]
            simp [itemApplies, hlk, he2, hval2]
          have he0 : itemError s0 (k0, v0) = none := by
            rw [← itemError_eq_of_shape hsh]
            simp [itemError, hlk, he, hval]
          have hts : trySave s c
              { c with value := v0, lastModifiedBy := u, version := c.version + 1 } =
              (.ok, replaceFirst s c.key
                { c with value := v0, lastModifiedBy := u, version := c.version + 1 }) := by
            unfold trySave
            rw [if_neg]
            intro hcontra
            exact hval hcontra.2
          rcases hgo : bulkGo u (replaceFirst s c.key
              { c with value := v0, lastModifiedBy := u, version := c.version + 1 })
              rest with ⟨rs, es, s2⟩
          have hcons : bulkGo u s ((k0, v0) :: rest) = (k0 :: rs, es, s2) := by
            simp only [bulkGo, hlk]
            simp only [if_neg he, if_neg hval]
            rw [hts]
            simp only [hgo]
          have hc' : lookup s c.key = some c := by
            rw [hkey0]
            exact hlk
          have hsh1 : LookupShapeEq s0 (replaceFirst s c.key
              { c with value := v0, lastModifiedBy := u, version := c.version + 1 }) :=
            hsh.step hc' rfl rfl rfl rfl
          have hself : lookup (replaceFirst s c.key
              { c with value := v0, lastModifiedBy := u, version := c.version + 1 }) k0 =
              some { c with value := v0, lastModifiedBy := u, version := c.version + 1 } := by
            rw [← hkey0]
            exact lookup_replaceFirst_self hc' rfl
          have hkrec : ({ c with value := v0, lastModifiedBy := u, version := c.version + 1 } : Config).key = c.key := rfl
          obtain ⟨ihres, iherr, ihnone, ihsome⟩ := ih s0 _ hsh1
          rw [hgo] at ihres iherr ihnone ihsome
          simp only at ihres iherr ihnone ihsome
          refine ⟨?_, ?_, ?_, ?_⟩
          · rw [hcons]
            show k0 :: rs = _
            rw [List.filter_cons]
            simp [ha0, ihres]
          · rw [hcons]
            show es = _
            rw [List.filterMap_cons, he0, iherr]
          · intro k hk
            rw [hcons]
            show lookup s2 k = none
            have hkne : k ≠ k0 := by
              intro hkk
              rw [hkk, hlk] at hk
              cases hk
            apply ihnone
            rw [lookup_replaceFirst_ne (by rw [hkey0]; exact hkne) hkrec]
            exact hk
          · intro k c2 hc2
            by_cases hk : k = k0
            · subst hk
              have hcc : c2 = c := by
                rw [hlk] at hc2
                injection hc2 with h
                exact h.symm
              subst hcc
              have hhead : keyAppliesPred s0 k (k, v0) = true := by
                rw [keyAppliesPred_eval, ha0, Bool.and_true]
                simp
              constructor
              · intro hF
                rw [List.filter_cons, hhead] at hF
                simp at hF
              · intro itl hl
                rw [hcons]
                show lookup s2 k = some _
                obtain ⟨ih1, ih2⟩ := ihsome k
                  { c2 with value := v0, lastModifiedBy := u, version := c2.version + 1 }
                  hself
                rw [List.filter_cons, hhead] at hl ⊢
                simp only [eq_self_iff_true, if_true] at hl ⊢
                cases hF2 : rest.filter (keyAppliesPred s0 k) with
                | nil =>
                  rw [hF2] at hl
                  simp only [List.getLast?_singleton, Option.some.injEq] at hl
                  rw [← hl]
                  exact ih1 hF2
                | cons f fs =>
                  rw [hF2] at hl
                  rw [List.getLast?_cons_cons] at hl
                  have hres2 := ih2 itl (by rw [hF2]; exact hl)
                  rw [hF2] at hres2
                  rw [hres2]
                  simp [List.length_cons]
                  omega
            · have hlk1 : lookup (replaceFirst s c.key
                  { c with value := v0, lastModifiedBy := u, version := c.version + 1 }) k =
                  some c2 := by
                rw [lookup_replaceFirst_ne (by rw [hkey0]; exact hk) hkrec]
                exact hc2
              obtain ⟨ih1, ih2⟩ := ihsome k c2 hlk1
              have hne0 : ¬(k0 = k) := fun h => hk h.symm
              have hhead : keyAppliesPred s0 k (k0, v0) = false := by
                rw [keyAppliesPred_eval]
                simp [hne0]
              constructor
              · intro hF
                rw [hcons]
                show lookup s2 k = some c2
                rw [List.filter_cons, hhead] at hF
                simp only [Bool.false_eq_true, if_false] at hF
                exact ih1 hF
              · intro itl hl
                rw [hcons]
                show lookup s2 k = some _
                rw [List.filter_cons, hhead] at hl ⊢
                simp only [Bool.false_eq_true, if_false] at hl ⊢
                exact ih2 itl hl

/-- C9 (amended): restricted to batches in which no item has an empty key
or an express-validator-empty value (otherwise the whole request is
rejected up front with 400 and nothing is applied), bulk update — with
duplicate keys allowed — processes each item independently in order: the
request succeeds structurally with exactly one `results` or `errors`
entry per item even if every item failed; `results` and `errors` are the
per-item classification against the starting store (missing key,
non-editable, validation failure); keys absent at the start stay absent;
and every present entry ends with `version` increased by exactly 1 per
applied item aimed at it (and the last applied value), in particular
untouched when no item applies to it. -/
theorem C9_bulk_independent_semantics :
    ∀ (s : Store) (items : List (String × JSValue)) (u : Nat),
      (∀ it ∈ items, it.1 ≠ "" ∧ gateEmpty it.2 = false) →
      ∃ res errs s2,
        bulkRoute s items u = (.okBulk res errs, s2) ∧
        res.length + errs.length = items.length ∧
        res = (items.filter (fun it => itemApplies s it)).map Prod.fst ∧
        errs = items.filterMap (fun it => itemError s it) ∧
        (∀ k, lookup s k = none → lookup s2 k = none) ∧
        (∀ k c, lookup s k = some c →
          (items.filter (keyAppliesPred s k) = [] → lookup s2 k = some c) ∧
          (∀ itl, (items.filter (keyAppliesPred s k)).getLast? = some itl →
            lookup s2 k = some { c with value := itl.2, lastModifiedBy := u, version := c.version + (items.filter (keyAppliesPred s k)).length })) := by
  intro s items u hclean
  have hgate : bulkGateMsgs items = [] := by
    unfold bulkGateMsgs
    have h1 : items.any (fun it => decide (it.1 = "")) = false := by
      rw [List.any_eq_false]
      intro it hit
      simp [(hclean it hit).1]
    have h2 : items.any (fun it => gateEmpty it.2) = false := by
      rw [List.any_eq_false]
      intro it hit
      simp [(hclean it hit).2]
    rw [h1, h2]
    simp
  rcases hgo : bulkGo u s items with ⟨rs, es, s2⟩
  obtain ⟨hres, herr, hnone, hsome⟩ :=
    bulkGo_full u items s s (LookupShapeEq.refl s)
  rw [hgo] at hres herr hnone hsome
  simp only at hres herr hnone hsome
  refine ⟨rs, es, s2, ?_, ?_, hres, herr, hnone, hsome⟩
  · simp [bulkRoute, hgate, hgo]
  · rw [hres, herr, List.length_map]
    exact filter_filterMap_length _ _
      (fun it => itemApplies_iff_itemError_none s it) items

/-- Witness for C9: on the concrete store `[c9w]` and the gate-clean
batch `[(b, false), (b, true), (zz, true)]` — with a duplicate key — the
request succeeds with two results and one error, the classification
matches, and entry `b` ends two versions up with the last applied
value. -/
theorem C9_bulk_independent_witness :
    ∃ res errs s2,
      bulkRoute [c9w]
        [("b", .bool false), ("b", .bool true), ("zz", .bool true)] 3 =
        (.okBulk res errs, s2) ∧
      res.length + errs.length = 3 ∧
      res = (([("b", .bool false), ("b", .bool true), ("zz", .bool true)] :
        List (String × JSValue)).filter
          (fun it => itemApplies [c9w] it)).map Prod.fst ∧
      errs = ([("b", .bool false), ("b", .bool true), ("zz", .bool true)] :
        List (String × JSValue)).filterMap (fun it => itemError [c9w] it) ∧
      (∀ k, lookup [c9w] k = none → lookup s2 k = none) ∧
      (∀ k c, lookup [c9w] k = some c →
        (([("b", .bool false), ("b", .bool true), ("zz", .bool true)] :
          List (String × JSValue)).filter (keyAppliesPred [c9w] k) = [] →
          lookup s2 k = some c) ∧
        (∀ itl, (([("b", .bool false), ("b", .bool true), ("zz", .bool true)] :
          List (String × JSValue)).filter
            (keyAppliesPred [c9w] k)).getLast? = some itl →
          lookup s2 k = some { c with value := itl.2, lastModifiedBy := 3, version := c.version + (([("b", .bool false), ("b", .bool true), ("zz", .bool true)] : List (String × JSValue)).filter (keyAppliesPred [c9w] k)).length })) :=
  C9_bulk_independent_semantics [c9w]
    [("b", .bool false), ("b", .bool true), ("zz", .bool true)] 3 (by decide)
